import Mathlib

/-
  Verification development for the Acconeer A121 distance detector
  (acconeer/exptool/a121/algo/distance/_detector.py and _processors.py).

  Shallow embedding conventions:
  * Python floats are modelled as exact rationals (ℚ).  All constants in the
    source (0.04, 2.5e-3, ...) are exactly representable.
  * numpy NaN-valued thresholds are modelled as `Option ℚ` with `none` = NaN;
    comparisons against NaN follow IEEE semantics (always false).
  * Python `int(x)` truncates toward zero: `pyInt`.  Float `//` is `Int.floor`.
    `np.round` rounds half to even: `npRound`.
  * The transcendental `10 ** ((signal_quality + 40*log10(d) - rlg)/10)` inside
    `_calculate_hwaas` is kept as an uninterpreted parameter `hwRaw`
    (type `HwRawFun`); no claim depends on its value, only on the clamp
    applied to it.
-/

namespace AcconeerDistance

/-- Python `int(float)`: truncation toward zero. -/
def pyInt (q : ℚ) : ℤ := Int.tdiv q.num q.den

/-- numpy `np.round` on a scalar: round half to even, returned as an integer
(the source immediately applies `int(...)` to the float result). -/
def npRound (q : ℚ) : ℤ :=
  let f := ⌊q⌋
  let r := q - f
  if r < 1/2 then f
  else if 1/2 < r then f + 1
  else if f % 2 = 0 then f else f + 1

/-- numpy `np.clip(x, lo, hi)` on integers: `min(max(x, lo), hi)`. -/
def npClip (x lo hi : ℤ) : ℤ := min (max x lo) hi

/-- Helper for `np.argmin(|l - target|)`: scans the tail keeping the first
index attaining the minimal absolute difference (numpy's `argmin` returns the
first minimizer); returns the list ELEMENT at that index. -/
def argminAbsAux (target : ℤ) : List ℤ → ℤ → ℤ → ℤ
  | [], best, _ => best
  | v :: vs, best, bestd =>
    if |v - target| < bestd then argminAbsAux target vs v |v - target|
    else argminAbsAux target vs best bestd

/-- `VALID_STEP_LENGTHS_IN_COARSE[np.argmin(np.abs(array - limit))]`. -/
def argminAbs (l : List ℤ) (target : ℤ) : ℤ :=
  match l with
  | [] => 0
  | v :: vs => argminAbsAux target vs v |v - target|

/-- numpy `np.argmax` over a list: index of the first maximal element. -/
def argmaxAux : List ℚ → ℕ → ℕ → ℚ → ℕ
  | [], _, best, _ => best
  | x :: xs, cur, best, bv =>
    if bv < x then argmaxAux xs (cur + 1) cur x
    else argmaxAux xs (cur + 1) best bv

/-- numpy `np.argmax` (first index of the maximum; 0 on the empty list, which
numpy would reject — all call sites pass nonempty slices). -/
def npArgmax : List ℚ → ℕ
  | [] => 0
  | x :: xs => argmaxAux xs 1 0 x

/-- numpy `np.linspace(a, b, n)`: `a + i*(b-a)/(n-1)` for `i < n`. -/
def linspace (a b : ℚ) (n : ℕ) : List ℚ :=
  (List.range n).map fun i => a + (b - a) * i / ((n : ℚ) - 1)

/-- The `a121.Profile` enum (5 pulse profiles). -/
inductive Profile
  | PROFILE_1 | PROFILE_2 | PROFILE_3 | PROFILE_4 | PROFILE_5
deriving DecidableEq

/-- The `a121.PRF` enum (pulse repetition frequencies used by the detector). -/
inductive PRF
  | PRF_19_5_MHz | PRF_13_0_MHz | PRF_8_7_MHz | PRF_6_5_MHz
deriving DecidableEq

/-- `prf.frequency` in Hz, used as the sort key in `_select_prf`. -/
def PRF.frequency : PRF → ℚ
  | .PRF_19_5_MHz => 19500000
  | .PRF_13_0_MHz => 13000000
  | .PRF_8_7_MHz => 8700000
  | .PRF_6_5_MHz => 6500000

/-- `ThresholdMethod` enum from `_processors.py`. -/
inductive ThresholdMethod
  | CFAR | FIXED | RECORDED
deriving DecidableEq

/-- `ProcessorMode` enum from `_processors.py`. -/
inductive ProcessorMode
  | DISTANCE_ESTIMATION | LEAKAGE_CALIBRATION | RECORDED_THRESHOLD_CALIBRATION
deriving DecidableEq

/-- Modelled from the spec: `MeasurementType` is imported by `_detector.py`
from `._processors` but is absent from the source tree; per the spec the
planner distinguishes close-range and far-range acquisition groups. -/
inductive MeasurementType
  | CLOSE_RANGE | FAR_RANGE
deriving DecidableEq

/-! ## Constant tables (Processor) -/

/-- `Processor.ENVELOPE_WIDTH_M` (meters), from `_processors.py`. -/
def ENVELOPE_WIDTH_M : Profile → ℚ
  | .PROFILE_1 => 0.04
  | .PROFILE_2 => 0.07
  | .PROFILE_3 => 0.14
  | .PROFILE_4 => 0.19
  | .PROFILE_5 => 0.32

/-- Modelled from the spec: `Processor.ENVELOPE_FWHM_M` is referenced by
`_detector.py` but absent from the source tree; the spec lists a single fixed
per-profile envelope width constant shared by both subsystems, which the
source tree carries as `ENVELOPE_WIDTH_M`, so the same values are used. -/
def ENVELOPE_FWHM_M : Profile → ℚ := ENVELOPE_WIDTH_M

/-- `Processor.APPROX_BASE_STEP_LENGTH_M = 2.5e-3`. -/
def APPROX_BASE_STEP_LENGTH_M : ℚ := 2.5e-3

/-- `Processor.CFAR_GUARD_LENGTH_ADJUSTMENT = 2`. -/
def CFAR_GUARD_LENGTH_ADJUSTMENT : ℚ := 2

/-- `Processor.CFAR_WINDOW_LENGTH_ADJUSTMENT = 0.25`. -/
def CFAR_WINDOW_LENGTH_ADJUSTMENT : ℚ := 0.25

/-- `Processor.distance_filter_init_margin`'s point count `margin_p`
(`np.ceil(ENVELOPE_WIDTH_M[profile] / (APPROX_BASE_STEP_LENGTH_M * step_length))`,
from `_processors.py`). -/
def distance_filter_init_margin_p (profile : Profile) (step_length : ℤ) : ℤ :=
  ⌈ENVELOPE_WIDTH_M profile / (APPROX_BASE_STEP_LENGTH_M * (step_length : ℚ))⌉

/-- Modelled from the spec: `Processor.distance_filter_edge_margin` is called
by the detector but absent from the source tree; the spec describes one
filter-initialization margin per segment edge, matching the in-tree
`distance_filter_init_margin` point count. -/
def distance_filter_edge_margin (profile : Profile) (step_length : ℤ) : ℤ :=
  distance_filter_init_margin_p profile step_length

/-- Modelled from the spec: `Processor.calc_cfar_margin` is called by the
detector but absent from the source tree; the spec derives the CFAR margin
from the guard gap plus the averaging-window length, both computed from the
profile's envelope width exactly as `_init_process_distance_estimation`
computes `idx_cfar_pts` (guard half-length plus window length). -/
def calc_cfar_margin (profile : Profile) (step_length : ℤ) : ℤ :=
  let guard_half_length :=
    npRound (ENVELOPE_FWHM_M profile * CFAR_GUARD_LENGTH_ADJUSTMENT / 2 /
      (APPROX_BASE_STEP_LENGTH_M * (step_length : ℚ)))
  let window_length :=
    npRound (ENVELOPE_FWHM_M profile * CFAR_WINDOW_LENGTH_ADJUSTMENT /
      (APPROX_BASE_STEP_LENGTH_M * (step_length : ℚ)))
  guard_half_length + window_length

/-! ## Constant tables (Detector) -/

/-- `Detector.MIN_DIST_M` (meters). -/
def MIN_DIST_M : Profile → ℚ
  | .PROFILE_1 => 0.10
  | .PROFILE_2 => 0.28
  | .PROFILE_3 => 0.56
  | .PROFILE_4 => 0.76
  | .PROFILE_5 => 1.28

/-- Dictionary insertion order of `Detector.MIN_DIST_M` (Python dicts are
ordered; the planner relies on this order for `transition_m` and for the
viable-profile scan). -/
def profileOrder : List Profile :=
  [.PROFILE_1, .PROFILE_2, .PROFILE_3, .PROFILE_4, .PROFILE_5]

/-- `Detector.MIN_NUM_POINTS_IN_ENVELOPE_FWHM_SPAN = 4.0`. -/
def MIN_NUM_POINTS_IN_ENVELOPE_FWHM_SPAN : ℚ := 4

/-- `Detector.VALID_STEP_LENGTHS_IN_COARSE`. -/
def VALID_STEP_LENGTHS_IN_COARSE : List ℤ := [1, 2, 3, 4, 6, 8, 12, 24]

/-- `Detector.NUM_POINTS_IN_COARSE = 24`. -/
def NUM_POINTS_IN_COARSE : ℤ := 24

/-- `Detector.NUM_SUBSWEEPS_IN_SENSOR_CONFIG = 4`. -/
def NUM_SUBSWEEPS_IN_SENSOR_CONFIG : ℕ := 4

/-- `Detector.MAX_HWAAS = 511`. -/
def MAX_HWAAS : ℤ := 511

/-- `Detector.MIN_HWAAS = 4`. -/
def MIN_HWAAS : ℤ := 4

/-- `Detector.RLG_PER_HWAAS_MAP`. -/
def RLG_PER_HWAAS_MAP : Profile → ℚ
  | .PROFILE_1 => 11.3
  | .PROFILE_2 => 13.7
  | .PROFILE_3 => 19.0
  | .PROFILE_4 => 20.5
  | .PROFILE_5 => 21.6

/-- `Detector.MAX_MEAS_DIST_M`, in dictionary insertion order. -/
def MAX_MEAS_DIST_M : List (PRF × ℚ) :=
  [(.PRF_19_5_MHz, 3.1), (.PRF_13_0_MHz, 7.0), (.PRF_8_7_MHz, 12.7), (.PRF_6_5_MHz, 18.5)]

/-! ## Detector configuration and plan data model -/

/-- Modelled from the spec: `PeakSortingMethod` lives in the external
aggregator module (`_aggregator.py` is not in the source tree); the spec says
"strongest first" is the only referenced mode. -/
inductive PeakSortingMethod
  | STRONGEST
deriving DecidableEq

/-- `DetectorConfig` from `_detector.py` (defaults as in the source; the
default `fixed_threshold_value` / `threshold_sensitivity` /`cfar_one_sided`
constants are imported there from `_processors`, whose in-tree version
carries them as the `ProcessorConfig` defaults 100.0 / 0.5 / False). -/
structure DetectorConfig where
  start_m : ℚ := 0.2
  end_m : ℚ := 1.0
  max_step_length : Option ℤ := none
  max_profile : Profile := .PROFILE_5
  signal_quality : ℚ := 18.0
  threshold_method : ThresholdMethod := .CFAR
  peaksorting_method : PeakSortingMethod := .STRONGEST
  num_frames_in_recorded_threshold : ℕ := 20
  fixed_threshold_value : ℚ := 100.0
  threshold_sensitivity : ℚ := 0.5
  cfar_one_sided : Bool := false
deriving DecidableEq

/-- `SubsweepGroupPlan` from `_detector.py`. -/
structure SubsweepGroupPlan where
  step_length : ℤ
  breakpoints : List ℤ
  profile : Profile
  hwaas : List ℤ
deriving DecidableEq

/-- The `Plan` dictionary `Dict[MeasurementType, List[SubsweepGroupPlan]]`:
a key being present corresponds to the list being nonempty (the source only
inserts nonempty lists). -/
structure GroupPlans where
  close : List SubsweepGroupPlan
  far : List SubsweepGroupPlan
deriving DecidableEq

/-- Uninterpreted model of the transcendental part of `_calculate_hwaas`:
`hwRaw profile subsweep_end_point_m signal_quality` stands for
`int(10 ** ((signal_quality + 40*np.log10(subsweep_end_point_m)
- RLG_PER_HWAAS_MAP[profile]) / 10))`, which involves `log10` and a
non-integral power and hence has no exact rational form.  Every claim is
proved for an arbitrary `HwRawFun`. -/
abbrev HwRawFun := Profile → ℚ → ℚ → ℤ

/-! ## Planner algorithm (`Detector` classmethods) -/

/-- `Detector._limit_step_length` from `_detector.py`:
FWHM-based point limit, capped by the user limit, then mapped into the coarse
step-length grid by `np.argmin(np.abs(VALID - limit))` (nearest member, first
on ties) below 24, else floored to a multiple of 24. -/
def limit_step_length (profile : Profile) (user_limit : Option ℤ) : ℤ :=
  let fwhm_p := ENVELOPE_FWHM_M profile / APPROX_BASE_STEP_LENGTH_M
  let limit := pyInt (fwhm_p / MIN_NUM_POINTS_IN_ENVELOPE_FWHM_SPAN)
  let limit := match user_limit with
    | some u => min u limit
    | none => limit
  if limit < NUM_POINTS_IN_COARSE then
    argminAbs VALID_STEP_LENGTHS_IN_COARSE limit
  else
    (Int.fdiv limit NUM_POINTS_IN_COARSE) * NUM_POINTS_IN_COARSE

/-- `Detector._calculate_hwaas`: one clamped hardware-average count per
inter-breakpoint segment, computed from `breakpoints[idx + 1]`. -/
def calculate_hwaas (hwRaw : HwRawFun) (profile : Profile) (breakpoints : List ℤ)
    (signal_quality : ℚ) : List ℤ :=
  (breakpoints.drop 1).map fun (b : ℤ) =>
    npClip (hwRaw profile (APPROX_BASE_STEP_LENGTH_M * ((b : ℤ) : ℚ)) signal_quality)
      MIN_HWAAS MAX_HWAAS

/-- `Detector._m_to_points`: affine map of meter breakpoints onto device
points (truncating the first breakpoint toward zero as `int(...)` does),
then floor division onto the step-length grid. -/
def m_to_points (breakpoints_m : List ℚ) (step_length : ℤ) : List ℤ :=
  let first := breakpoints_m.headD 0
  let lst := breakpoints_m.getLastD 0
  let start_point : ℤ := pyInt (first / APPROX_BASE_STEP_LENGTH_M)
  let num_steps := (lst - first) / APPROX_BASE_STEP_LENGTH_M
  breakpoints_m.map fun m =>
    ⌊(num_steps / (lst - first) * (m - first) + (start_point : ℚ)) / (step_length : ℚ)⌋
      * step_length

/-- Adds `x` to the last element of a list (`bpts[-1] += right_margin`). -/
def addToLast (x : ℤ) : List ℤ → List ℤ
  | [] => []
  | [b] => [b + x]
  | b :: c :: rest => b :: addToLast x (c :: rest)

/-- `Detector._add_margin_to_breakpoints`: filter-initialization margin on
both outer edges, doubled on edges with a neighbouring segment, plus a CFAR
margin on both edges when the threshold method is CFAR. -/
def add_margin_to_breakpoints (profile : Profile) (step_length : ℤ)
    (base_bpts : List ℤ) (has_neighbour : Bool × Bool) (config : DetectorConfig) :
    List ℤ :=
  let margin_p := distance_filter_edge_margin profile step_length * step_length
  let left_margin := margin_p + (if has_neighbour.1 then margin_p else 0)
  let right_margin := margin_p + (if has_neighbour.2 then margin_p else 0)
  let cfar_margin : ℤ :=
    if config.threshold_method = .CFAR then calc_cfar_margin profile step_length * step_length
    else 0
  let left_margin := left_margin + cfar_margin
  let right_margin := right_margin + cfar_margin
  addToLast right_margin (base_bpts.modifyHead (· - left_margin))

/-- `Detector._add_to_min_dist_m`: per-profile effective minimum distance
(base minimum distance plus, for the CFAR threshold method, the CFAR margin
converted to meters at the profile's step length). -/
def add_to_min_dist_m (config : DetectorConfig) (profile : Profile) : ℚ :=
  MIN_DIST_M profile +
    (if config.threshold_method = .CFAR then
      let step_length := limit_step_length profile config.max_step_length
      ((calc_cfar_margin profile step_length : ℚ)) * (step_length : ℚ) *
        APPROX_BASE_STEP_LENGTH_M
    else 0)

/-- `Detector._create_group_plans` from `_detector.py`, translated branch by
branch (`transition_m` is the first value of the effective-minimum-distance
dictionary, i.e. PROFILE_1's). -/
def create_group_plans (hwRaw : HwRawFun) (config : DetectorConfig) : GroupPlans :=
  let min_dist_m := add_to_min_dist_m config
  let transition_m := min_dist_m .PROFILE_1
  let closePlans : List SubsweepGroupPlan :=
    if config.start_m < transition_m then
      let profile := Profile.PROFILE_1
      let step_length := limit_step_length profile config.max_step_length
      let breakpoints := m_to_points [config.start_m, transition_m] step_length
      let hwaas := calculate_hwaas hwRaw profile breakpoints config.signal_quality
      let has_neighbour := (false, decide (transition_m < config.end_m))
      let extended_breakpoints :=
        add_margin_to_breakpoints profile step_length breakpoints has_neighbour config
      [{ step_length := step_length, breakpoints := extended_breakpoints,
         profile := profile, hwaas := hwaas }]
    else []
  let far_range_start_m := max config.start_m transition_m
  let farPlans1 : List SubsweepGroupPlan :=
    if config.max_profile ≠ Profile.PROFILE_1 ∧ far_range_start_m < config.end_m then
      let viable := profileOrder.filter fun p => min_dist_m p ≤ far_range_start_m
      let profile_to_be_used := viable.getLastD Profile.PROFILE_1
      let end_m := min config.end_m (min_dist_m config.max_profile)
      let step_length := limit_step_length profile_to_be_used config.max_step_length
      let breakpoints := m_to_points [far_range_start_m, end_m] step_length
      let hwaas := calculate_hwaas hwRaw profile_to_be_used breakpoints config.signal_quality
      let has_neighbour := (decide (closePlans ≠ []),
        decide (min_dist_m config.max_profile < end_m))
      let extended_breakpoints :=
        add_margin_to_breakpoints profile_to_be_used step_length breakpoints has_neighbour
          config
      [{ step_length := step_length, breakpoints := extended_breakpoints,
         profile := profile_to_be_used, hwaas := hwaas }]
    else []
  let farPlans : List SubsweepGroupPlan :=
    if min_dist_m config.max_profile < config.end_m then
      let breakpoints_m := linspace (min_dist_m config.max_profile) config.end_m
        (NUM_SUBSWEEPS_IN_SENSOR_CONFIG + 1 - farPlans1.length)
      let profile := config.max_profile
      let step_length := limit_step_length config.max_profile config.max_step_length
      let breakpoints := m_to_points breakpoints_m step_length
      let hwaas := calculate_hwaas hwRaw profile breakpoints config.signal_quality
      let has_neighbour := (decide (closePlans ≠ []) || decide (farPlans1 ≠ []), false)
      let extended_breakpoints :=
        add_margin_to_breakpoints profile step_length breakpoints has_neighbour config
      farPlans1 ++
        [{ step_length := step_length, breakpoints := extended_breakpoints,
           profile := profile, hwaas := hwaas }]
    else farPlans1
  { close := closePlans, far := farPlans }

/-! ## Processor data model -/

instance : Inhabited Profile := ⟨.PROFILE_1⟩

/-- `a121.SubsweepConfig` (external `a121` module; fields as constructed and
read by the detector and processor sources; `prf = none` models the library
default used when the constructor receives no `prf`). -/
structure SubsweepConfig where
  start_point : ℤ
  num_points : ℤ
  step_length : ℤ
  profile : Profile
  hwaas : ℤ
  receiver_gain : ℤ
  phase_enhancement : Bool := false
  enable_loopback : Bool := false
  prf : Option PRF := none
deriving DecidableEq, Inhabited

/-- `ProcessorConfig` from `_processors.py`.  The `measurement_type` and
`threshold_sensitivity` fields are modelled from the spec: `_detector.py`
sets both but the in-tree `_processors.py` predates them (the spec's
`ProcessorSpec` carries a processor configuration with a close/far
measurement type). -/
structure ProcessorConfig where
  processor_mode : ProcessorMode := .DISTANCE_ESTIMATION
  threshold_method : ThresholdMethod := .CFAR
  measurement_type : MeasurementType := .FAR_RANGE
  sc_bg_num_std_dev : ℚ := 3.0
  fixed_threshold_value : ℚ := 100.0
  threshold_sensitivity : ℚ := 0.5
  cfar_guard_length_m : Option ℚ := none
  cfar_window_length_m : Option ℚ := none
  cfar_sensitivity : ℚ := 0.5
  cfar_one_sided : Bool := false
deriving DecidableEq

/-- `ProcessorContext` from `_processors.py`; `direct_leakage` and
`phase_jitter_comp_ref` are modelled from the spec (the detector attaches
them for close-range processing; complex arrays are modelled as lists of
real/imaginary pairs). -/
structure ProcessorContext where
  recorded_threshold : Option (List ℚ) := none
  abs_noise_std : Option ℚ := none
  direct_leakage : Option (List (ℚ × ℚ)) := none
  phase_jitter_comp_ref : Option (List ℚ) := none
deriving DecidableEq

/-- Error taxonomy: each constructor stands for one distinct `raise` site /
exception class in the source. -/
inductive Err
  | valueError                   -- bare ValueError (subsweep validation)
  | missingRecordedThreshold     -- ValueError "Missing recorded threshold in context"
  | assertionError               -- failed assert
  | runtimeErrorBad              -- bare RuntimeError (unknown mode / inconsistent context)
  | runtimeAlreadyStarted        -- RuntimeError "Already started"
  | runtimeNotStarted            -- RuntimeError "Not started"
  | runtimeAlreadyStopped        -- RuntimeError "Already stopped"
  | valueNotCalibrated           -- ValueError "Detector not calibrated."
  | valueConfigMismatch          -- ValueError "Session config does not match ..."
  | valueIncorrectCloseRange     -- ValueError "Incorrect subsweep config ..."
  | exceptionCloseRangeCal       -- Exception "Close range calibration not performed"
  | exceptionRecordedCal         -- Exception "Recorded threshold calibration not performed"
  | valueBadFilterCoeff          -- scipy ValueError "... must be 0 < Wn < 1" from butter
  | valueNegativeDimension       -- numpy ValueError "negative dimensions are not allowed"
  | zeroDivisionError            -- Python ZeroDivisionError (float division by zero)
deriving DecidableEq

/-! ## Subsweep validation (`Processor._validate` and friends) -/

/-- `Processor._get_profile`: the single shared profile, `ValueError` when
the profile set has more than one element (or is empty, where the source's
1-tuple unpacking fails). -/
def get_profile : List SubsweepConfig → Except Err Profile
  | [] => .error .valueError
  | c :: rest =>
    if rest.all fun d => d.profile = c.profile then .ok c.profile
    else .error .valueError

/-- `Processor._get_step_length`, analogous to `get_profile`. -/
def get_step_length : List SubsweepConfig → Except Err ℤ
  | [] => .error .valueError
  | c :: rest =>
    if rest.all fun d => d.step_length = c.step_length then .ok c.step_length
    else .error .valueError

/-- The loop body of `Processor._validate_range`: each subsweep must start at
`next_expected_start_point` (previous start plus previous point count times
the shared step length). -/
def check_contiguous (step : ℤ) : Option ℤ → List SubsweepConfig → Except Err Unit
  | _, [] => .ok ()
  | none, c :: rest => check_contiguous step (some (c.start_point + c.num_points * step)) rest
  | some expected, c :: rest =>
    if c.start_point ≠ expected then .error .valueError
    else check_contiguous step (some (c.start_point + c.num_points * step)) rest

/-- `Processor._validate_range`. -/
def validate_range (cs : List SubsweepConfig) : Except Err Unit := do
  let step ← get_step_length cs
  check_contiguous step none cs

/-- `Processor._validate`: contiguity, then phase enhancement on every
covered subsweep. -/
def validate (cs : List SubsweepConfig) : Except Err Unit := do
  validate_range cs
  if cs.all (·.phase_enhancement) then .ok () else .error .valueError

/-! ## Processor construction (`Processor.__init__`) -/

/-- The fields `Processor.__init__` derives that matter to the claims. -/
structure ProcessorInitInfo where
  profile : Profile
  step_length : ℤ
  start_point : ℤ
  num_points : ℤ
  margin_p : ℤ
  threshold : Option (List ℚ)
  idx_cfar_pts : List ℕ
deriving DecidableEq

/-- The digital critical frequency of `Processor._get_distance_filter_coeffs`:
`wnc = APPROX_BASE_STEP_LENGTH_M * step_length / ENVELOPE_WIDTH_M[profile]`,
passed to `butter(N=2, Wn=wnc)`. -/
def filter_wnc (profile : Profile) (step_length : ℤ) : ℚ :=
  APPROX_BASE_STEP_LENGTH_M * (step_length : ℚ) / ENVELOPE_WIDTH_M profile

/-- `Processor._init_process_distance_estimation`: RECORDED requires a
recorded threshold in the context; FIXED builds a constant array via
`np.full(num_points_cropped, ...)`, which raises ValueError on a negative
dimension; CFAR derives `idx_cfar_pts` from guard and window lengths, where
the Python float division `cfar_guard_length_m / 2.0 / step_length_m` raises
ZeroDivisionError when `step_length_m` is zero. -/
def init_process_distance_estimation (pc : ProcessorConfig)
    (context : Option ProcessorContext) (profile : Profile)
    (step_length_m approx_step_length_m : ℚ) (num_points_cropped : ℤ) :
    Except Err (Option (List ℚ) × List ℕ) :=
  match pc.threshold_method with
  | .RECORDED =>
    match context with
    | none => .error .missingRecordedThreshold
    | some ctx =>
      match ctx.recorded_threshold with
      | none => .error .missingRecordedThreshold
      | some rt => .ok (some rt, [])
  | .FIXED =>
    if num_points_cropped < 0 then .error .valueNegativeDimension
    else .ok (some (List.replicate num_points_cropped.toNat pc.fixed_threshold_value), [])
  | .CFAR =>
    if step_length_m = 0 then .error .zeroDivisionError
    else
      let cfar_guard_length_m :=
        pc.cfar_guard_length_m.getD (ENVELOPE_WIDTH_M profile * CFAR_GUARD_LENGTH_ADJUSTMENT)
      let cfar_window_length_m :=
        pc.cfar_window_length_m.getD (ENVELOPE_WIDTH_M profile * CFAR_WINDOW_LENGTH_ADJUSTMENT)
      let guard_half_length := npRound (cfar_guard_length_m / 2 / step_length_m)
      let window_length := npRound (cfar_window_length_m / approx_step_length_m)
      .ok (none, (List.range window_length.toNat).map fun i => guard_half_length.toNat + i)

/-- `Processor.__init__` on the selected subsweep configurations: validation,
shared profile/step length, metadata assert, the `butter` filter-coefficient
step (scipy's `iirfilter` raises ValueError unless the digital critical
frequency satisfies `0 < Wn < 1`), and mode-specific setup, in source order
(`_init_recorded_threshold_calibration` calls `np.zeros(num_points_cropped)`,
which raises ValueError on a negative dimension). -/
def processor_init (subsweep_configs : List SubsweepConfig)
    (base_step_length_m : Option ℚ) (pc : ProcessorConfig)
    (context : Option ProcessorContext) : Except Err ProcessorInitInfo := do
  validate subsweep_configs
  let profile ← get_profile subsweep_configs
  let step_length ← get_step_length subsweep_configs
  let start_point := (subsweep_configs.headD default).start_point
  let num_points := (subsweep_configs.map (·.num_points)).sum
  let approx_step_length_m := (step_length : ℚ) * APPROX_BASE_STEP_LENGTH_M
  match base_step_length_m with
  | none => .error Err.assertionError
  | some base =>
  let step_length_m := (step_length : ℚ) * base
  let margin_p := distance_filter_init_margin_p profile step_length
  let num_points_cropped := num_points - 2 * margin_p
  if filter_wnc profile step_length ≤ 0 ∨ 1 ≤ filter_wnc profile step_length then
    .error .valueBadFilterCoeff
  else
  match pc.processor_mode with
  | .DISTANCE_ESTIMATION => do
    let r ← init_process_distance_estimation pc context profile step_length_m
      approx_step_length_m num_points_cropped
    .ok { profile := profile, step_length := step_length, start_point := start_point,
          num_points := num_points, margin_p := margin_p, threshold := r.1,
          idx_cfar_pts := r.2 }
  | .LEAKAGE_CALIBRATION =>
    .ok { profile := profile, step_length := step_length, start_point := start_point,
          num_points := num_points, margin_p := margin_p, threshold := none,
          idx_cfar_pts := [] }
  | .RECORDED_THRESHOLD_CALIBRATION =>
    if num_points_cropped < 0 then .error .valueNegativeDimension
    else
      .ok { profile := profile, step_length := step_length, start_point := start_point,
            num_points := num_points, margin_p := margin_p, threshold := none,
            idx_cfar_pts := [] }

/-- `num_points_cropped` as `__init__` computes it from the shared profile
and step length: total point count minus twice the filter-init margin. -/
def num_points_cropped_of (cs : List SubsweepConfig) : ℤ :=
  (cs.map (·.num_points)).sum -
    2 * distance_filter_init_margin_p (cs.headD default).profile
      (cs.headD default).step_length

/-! ## CFAR threshold (`Processor._calculate_cfar_threshold`) -/

/-- numpy `np.max` over a list of naturals (call sites guarantee nonempty,
numpy rejects the empty case). -/
def maxNat (l : List ℕ) : ℕ := l.foldl max 0

/-- List access at a signed index, as fed to `np.take` (all take-indexes are
in range at the defined threshold positions). -/
def agetI (a : List ℚ) (z : ℤ) : ℚ := if z < 0 then 0 else a.getD z.toNat 0

/-- Threshold array access: entries are `Option ℚ` with `none` for NaN. -/
def tget (t : List (Option ℚ)) (i : ℕ) : Option ℚ := t.getD i none

/-- IEEE comparison `x <= t` where `t` may be NaN: NaN compares false. -/
def leOpt (x : ℚ) : Option ℚ → Bool
  | none => false
  | some v => decide (x ≤ v)

/-- `Processor._calculate_cfar_threshold`: NaN (`none`) outside
`[max(idx_cfar_pts), end_idx)`, inside it the mean of the envelope at the
offset indexes (trailing only when one-sided, both sides otherwise), plus the
optional noise offset, divided by `alpha + 1e-10`. -/
def calculate_cfar_threshold (abs_sweep : List ℚ) (idx_cfar_pts : List ℕ) (alpha : ℚ)
    (one_side : Bool) (abs_noise_std : Option ℚ) : List (Option ℚ) :=
  let start_idx := maxNat idx_cfar_pts
  let take_relative_indexes : List ℤ :=
    if one_side then idx_cfar_pts.map fun p => -(p : ℤ)
    else (idx_cfar_pts.map fun p => -(p : ℤ)) ++ (idx_cfar_pts.map fun p => (p : ℤ))
  let end_idx := if one_side then abs_sweep.length else abs_sweep.length - start_idx
  (List.range abs_sweep.length).map fun idx =>
    if start_idx ≤ idx ∧ idx < end_idx then
      let takes := take_relative_indexes.map fun r => agetI abs_sweep ((idx : ℤ) + r)
      some ((takes.sum / (takes.length : ℚ) + abs_noise_std.getD 0) * (1 / (alpha + 1e-10)))
    else none

/-! ## Peak detection (`Processor._find_peaks`) -/

/-- The inner widening loop of `_find_peaks`: starting from `u = d + 1`,
scan while samples equal `abs_sweep[d]`; returns the final `d_upper` and the
peak recorded on the strict-drop exit (`np.argmax(abs_sweep[d:d_upper]) + d`). -/
def innerScan (a : List ℚ) (t : List (Option ℚ)) (N d u : ℕ) : ℕ × Option ℕ :=
  if h : N - 1 ≤ u then (u, none)
  else if tget t u = none then (u, none)
  else if leOpt (a.getD u 0) (tget t u) then (u, none)
  else if a.getD d 0 < a.getD u 0 then (u, none)
  else if a.getD u 0 < a.getD d 0 then
    (u, some (npArgmax ((a.drop d).take (u - d)) + d))
  else innerScan a t N d (u + 1)
termination_by N - u
decreasing_by omega

theorem innerScan_fst_ge_aux (a : List ℚ) (t : List (Option ℚ)) (N d : ℕ) :
    ∀ k u, N - u ≤ k → u ≤ (innerScan a t N d u).1 := by
  intro k
  induction k with
  | zero =>
    intro u hu
    rw [innerScan]
    split
    next => exact le_rfl
    next hcon => exact absurd (by omega : N - 1 ≤ u) hcon
  | succ k ih =>
    intro u hu
    rw [innerScan]
    split
    next => exact le_rfl
    next h1 =>
      split
      next => exact le_rfl
      split
      next => exact le_rfl
      split
      next => exact le_rfl
      split
      next => exact le_rfl
      exact le_trans (Nat.le_succ u) (ih (u + 1) (by omega))

/-- The final `d_upper` of the inner loop is at least its starting value. -/
theorem innerScan_fst_ge (a : List ℚ) (t : List (Option ℚ)) (N d u : ℕ) :
    u ≤ (innerScan a t N d u).1 :=
  innerScan_fst_ge_aux a t N d (N - u) u le_rfl

/-- The outer scan of `_find_peaks` (`while d < N - 1`), with the skip /
break / rising-edge checks in source order. -/
def find_peaks_aux (a : List ℚ) (t : List (Option ℚ)) (N d : ℕ) : List ℕ :=
  if _h : N - 1 ≤ d then []
  else if tget t (d - 1) = none then find_peaks_aux a t N (d + 1)
  else if tget t (d + 1) = none then []
  else if leOpt (a.getD d 0) (tget t d) then find_peaks_aux a t N (d + 2)
  else if leOpt (a.getD (d - 1) 0) (tget t (d - 1)) then find_peaks_aux a t N (d + 1)
  else if a.getD d 0 ≤ a.getD (d - 1) 0 then find_peaks_aux a t N (d + 1)
  else
    let r := innerScan a t N d (d + 1)
    r.2.toList ++ find_peaks_aux a t N r.1
termination_by N - d
decreasing_by
  · omega
  · omega
  · omega
  · omega
  · have hge := innerScan_fst_ge a t N d (d + 1)
    omega

/-- `Processor._find_peaks`. -/
def find_peaks (abs_sweep : List ℚ) (threshold : List (Option ℚ)) : List ℕ :=
  find_peaks_aux abs_sweep threshold abs_sweep.length 1

/-! ## Peak interpolation (`Processor._interpolate_peaks`) -/

/-- `Processor._interpolate_peaks`: for each peak index, the closed-form
quadratic through the three samples centered on the peak
(`x = [p-1, p, p+1]`), its vertex `peak_loc = -b/(2a)`, the reported
distance `(start_point + peak_loc*step_length) * 2.5` (the literal `2.5`
appears verbatim in the source), and the amplitude `a*x^2 + b*x + c` at the
vertex.  Returns (distances, amplitudes). -/
def interpolate_peaks (abs_sweep : List ℚ) (peak_idxs : List ℕ) (start_point : ℤ)
    (step_length : ℤ) : List ℚ × List ℚ :=
  let pairs : List (ℚ × ℚ) := peak_idxs.map fun peak_idx =>
    let xq : ℚ := (peak_idx : ℕ)
    let x0 : ℚ := xq - 1
    let x1 : ℚ := xq
    let x2 : ℚ := xq + 1
    let y0 := abs_sweep.getD (peak_idx - 1) 0
    let y1 := abs_sweep.getD peak_idx 0
    let y2 := abs_sweep.getD (peak_idx + 1) 0
    let a := (x0 * (y2 - y1) + x1 * (y0 - y2) + x2 * (y1 - y0)) /
      ((x0 - x1) * (x0 - x2) * (x1 - x2))
    let b := (y1 - y0) / (x1 - x0) - a * (x0 + x1)
    let c := y0 - a * x0 ^ 2 - b * x0
    let peak_loc := -b / (2 * a)
    (((start_point : ℚ) + peak_loc * (step_length : ℚ)) * 2.5,
      a * peak_loc ^ 2 + b * peak_loc + c)
  (pairs.map Prod.fst, pairs.map Prod.snd)

/-! ## Recorded-threshold calibration accumulator -/

/-- The accumulator state set up by
`Processor._init_recorded_threshold_calibration`.  The numpy arrays are
modelled as point-indexed functions; `bg_sc_mean` is, as in the source, the
running SUM of envelopes (the division by the sweep count happens at
emission time). -/
structure SCState where
  bg_sc_mean : ℕ → ℚ
  bg_sc_sum_squared_bg_sweeps : ℕ → ℚ
  sc_bg_num_sweeps : ℚ
  sc_bg_num_std_dev : ℚ

/-- `Processor._init_recorded_threshold_calibration`. -/
def init_recorded_threshold_calibration (sc_bg_num_std_dev : ℚ) : SCState :=
  { bg_sc_mean := fun _ => 0, bg_sc_sum_squared_bg_sweeps := fun _ => 0,
    sc_bg_num_sweeps := 1, sc_bg_num_std_dev := sc_bg_num_std_dev }

/-- `Processor._process_recorded_threshold_calibration`.  The source emits
`threshold = mean_sweep + sc_bg_num_std_dev * sqrt(|mean_square - square_mean|
* n / (n-1))` once `2 <= n`; since the square root is irrational, the
embedding returns for each point the pair `(mean_sweep, |mean_square -
square_mean| * n / (n-1))` — the emitted float threshold is `pair.1 +
sc_bg_num_std_dev * sqrt(pair.2)`, so `pair = (v, 0)` corresponds to a
threshold exactly `v`. -/
def process_recorded_threshold_calibration (st : SCState) (abs_sweep : ℕ → ℚ) :
    SCState × Option (ℕ → ℚ × ℚ) :=
  let bg_sc_mean := fun j => st.bg_sc_mean j + abs_sweep j
  let bg_sc_sum_squared := fun j => st.bg_sc_sum_squared_bg_sweeps j + abs_sweep j ^ 2
  let n := st.sc_bg_num_sweeps
  let threshold : Option (ℕ → ℚ × ℚ) :=
    if 2 ≤ n then
      some fun j =>
        let mean_sweep := bg_sc_mean j / n
        let mean_square := bg_sc_sum_squared j / n
        let square_mean := mean_sweep ^ 2
        (mean_sweep, |mean_square - square_mean| * n / (n - 1))
    else none
  ({ bg_sc_mean := bg_sc_mean, bg_sc_sum_squared_bg_sweeps := bg_sc_sum_squared,
     sc_bg_num_sweeps := n + 1, sc_bg_num_std_dev := st.sc_bg_num_std_dev }, threshold)

/-- Repeated `process()` calls in recorded-threshold-calibration mode: the
list of per-call `recorded_threshold` outputs, in call order. -/
def run_recorded_threshold_calibration : SCState → List (ℕ → ℚ) →
    List (Option (ℕ → ℚ × ℚ))
  | _, [] => []
  | st, s :: rest =>
    let r := process_recorded_threshold_calibration st s
    r.2 :: run_recorded_threshold_calibration r.1 rest

/-- The state after a sequence of calibration calls. -/
def fold_recorded_threshold_calibration (st : SCState) (sweeps : List (ℕ → ℚ)) : SCState :=
  sweeps.foldl (fun s sweep => (process_recorded_threshold_calibration s sweep).1) st

/-! ## Session configuration and processor specs -/

/-- `a121.SensorConfig` (external `a121` module): the subsweep list plus
`sweeps_per_frame`. -/
structure SensorConfig where
  subsweeps : List SubsweepConfig
  sweeps_per_frame : ℤ
deriving DecidableEq

/-- `a121.SessionConfig` (external `a121` module): a list of acquisition
groups, each mapping a sensor id to a sensor configuration (the detector only
ever uses one sensor per group), with the `extended` flag. -/
structure SessionConfig where
  groups : List (ℤ × SensorConfig)
  extended : Bool
deriving DecidableEq

/-- Modelled from the spec: `ProcessorSpec` is imported by `_detector.py`
from the external `_aggregator` module; the spec defines it as group index,
sensor id, subsweep index list, processor configuration and optional
processor context. -/
structure ProcessorSpec where
  processor_config : ProcessorConfig
  group_index : ℕ
  sensor_id : ℤ
  subsweep_indexes : List ℕ
  processor_context : Option ProcessorContext := none
deriving DecidableEq

/-- `Detector._select_prf`: drop the 19.5 MHz tier unless the profile is one
of the two shortest, keep the PRFs whose unambiguous range exceeds the
breakpoint in meters, and return the highest-frequency one
(`sorted(viable, key=frequency)[-1]`; frequencies are distinct). -/
def select_prf (breakpoint : ℤ) (profile : Profile) : PRF :=
  let max_meas_dist_m :=
    if profile ≠ Profile.PROFILE_1 ∧ profile ≠ Profile.PROFILE_2 then
      MAX_MEAS_DIST_M.filter fun pd => pd.1 ≠ PRF.PRF_19_5_MHz
    else MAX_MEAS_DIST_M
  let breakpoint_m := (breakpoint : ℚ) * APPROX_BASE_STEP_LENGTH_M
  let viable := max_meas_dist_m.filter fun pd => breakpoint_m < pd.2
  match viable.map Prod.fst with
  | [] => PRF.PRF_6_5_MHz
  | p :: ps => ps.foldl (fun acc q => if PRF.frequency acc ≤ PRF.frequency q then q else acc) p

instance : Inhabited SubsweepGroupPlan :=
  ⟨{ step_length := 1, breakpoints := [], profile := .PROFILE_1, hwaas := [] }⟩

/-- `Detector._close_subsweep_group_plans_to_sensor_config`: a loopback
reference subsweep plus the ranging subsweep from the (single) close-range
plan. -/
def close_subsweep_group_plans_to_sensor_config (plan_ : List SubsweepGroupPlan) :
    SensorConfig :=
  let plan := plan_.headD default
  let sub0 : SubsweepConfig :=
    { start_point := 0, num_points := 1, step_length := 1, profile := .PROFILE_4,
      hwaas := plan.hwaas.getD 0 0, receiver_gain := 15, phase_enhancement := true,
      enable_loopback := true, prf := none }
  let num_points := pyInt (((plan.breakpoints.getD 1 0 - plan.breakpoints.getD 0 0) : ℚ) /
    (plan.step_length : ℚ))
  let sub1 : SubsweepConfig :=
    { start_point := plan.breakpoints.getD 0 0, num_points := num_points,
      step_length := plan.step_length, profile := plan.profile,
      hwaas := plan.hwaas.getD 0 0, receiver_gain := 5, phase_enhancement := true,
      enable_loopback := false, prf := some (select_prf (plan.breakpoints.getD 1 0) plan.profile) }
  { subsweeps := [sub0, sub1], sweeps_per_frame := 10 }

/-- One far-range plan's subsweeps (the inner loop of
`_far_subsweep_group_plans_to_sensor_config_and_subsweep_indexes`). -/
def far_plan_subsweeps (plan : SubsweepGroupPlan) : List SubsweepConfig :=
  (List.range (plan.breakpoints.length - 1)).map fun bp_idx =>
    { start_point := plan.breakpoints.getD bp_idx 0,
      num_points := pyInt (((plan.breakpoints.getD (bp_idx + 1) 0 -
        plan.breakpoints.getD bp_idx 0) : ℚ) / (plan.step_length : ℚ)),
      step_length := plan.step_length, profile := plan.profile,
      hwaas := plan.hwaas.getD bp_idx 0, receiver_gain := 10, phase_enhancement := true,
      enable_loopback := false,
      prf := some (select_prf (plan.breakpoints.getD (bp_idx + 1) 0) plan.profile) }

/-- The outer loop of
`_far_subsweep_group_plans_to_sensor_config_and_subsweep_indexes`: flattened
subsweeps plus, per plan, its global subsweep-index list (`subsweep_idx`
running across plans). -/
def far_plans_fold : List SubsweepGroupPlan → ℕ → List SubsweepConfig × List (List ℕ)
  | [], _ => ([], [])
  | plan :: rest, subsweep_idx =>
    let subs := far_plan_subsweeps plan
    let idxs := (List.range subs.length).map (· + subsweep_idx)
    let r := far_plans_fold rest (subsweep_idx + subs.length)
    (subs ++ r.1, idxs :: r.2)

/-- `Detector._far_subsweep_group_plans_to_sensor_config_and_subsweep_indexes`. -/
def far_subsweep_group_plans_to_sensor_config_and_subsweep_indexes
    (subsweep_group_plans : List SubsweepGroupPlan) : SensorConfig × List (List ℕ) :=
  let r := far_plans_fold subsweep_group_plans 0
  ({ subsweeps := r.1, sweeps_per_frame := 1 }, r.2)

/-- `Detector._detector_to_session_config_and_processor_specs`. -/
def detector_to_session_config_and_processor_specs (hwRaw : HwRawFun)
    (config : DetectorConfig) (sensor_id : ℤ) : SessionConfig × List ProcessorSpec :=
  let plans := create_group_plans hwRaw config
  let closeGroups : List (ℤ × SensorConfig) :=
    if plans.close ≠ [] then
      [(sensor_id, close_subsweep_group_plans_to_sensor_config plans.close)]
    else []
  let closeProcessorConfig : ProcessorConfig :=
    { threshold_method := .RECORDED, measurement_type := .CLOSE_RANGE }
  let closeSpecs : List ProcessorSpec :=
    if plans.close ≠ [] then
      [{ processor_config := closeProcessorConfig, group_index := 0,
         sensor_id := sensor_id, subsweep_indexes := [0, 1] }]
    else []
  let group_index := closeSpecs.length
  let farPart : List (ℤ × SensorConfig) × List ProcessorSpec :=
    if plans.far ≠ [] then
      let r := far_subsweep_group_plans_to_sensor_config_and_subsweep_indexes plans.far
      let processor_config : ProcessorConfig :=
        { threshold_method := config.threshold_method,
          fixed_threshold_value := config.fixed_threshold_value,
          threshold_sensitivity := config.threshold_sensitivity,
          cfar_one_sided := config.cfar_one_sided }
      ([(sensor_id, r.1)],
        r.2.map fun subsweep_indexes =>
          { processor_config := processor_config, group_index := group_index,
            sensor_id := sensor_id, subsweep_indexes := subsweep_indexes })
    else ([], [])
  ({ groups := closeGroups ++ farPart.1, extended := true }, closeSpecs ++ farPart.2)

/-! ## Detector context, status and lifecycle -/

/-- `DetectorContext` from `_detector.py` (complex arrays as real/imaginary
pairs). -/
structure DetectorContext where
  direct_leakage : Option (List (ℚ × ℚ)) := none
  phase_jitter_comp_reference : Option (List ℚ) := none
  recorded_thresholds : Option (List (List ℚ)) := none
  recorded_threshold_session_config_used : Option SessionConfig := none
  close_range_session_config_used : Option SessionConfig := none
deriving DecidableEq

/-- `DetailedStatus` from `_detector.py`. -/
inductive DetailedStatus
  | OK
  | CLOSE_RANGE_CALIBRATION_MISSING
  | CLOSE_RANGE_CALIBRATION_CONFIG_MISMATCH
  | RECORDED_THRESHOLD_MISSING
  | RECORDED_THRESHOLD_CONFIG_MISMATCH
deriving DecidableEq

/-- `DetectorStatus` from `_detector.py`. -/
structure DetectorStatus where
  detector_state : DetailedStatus
  ready_to_calibrate_close_range : Bool
  ready_to_record_threshold : Bool
  ready_to_start : Bool
deriving DecidableEq

/-- `Detector._close_range_calibrated`: RuntimeError when exactly one of the
two leakage fields is set. -/
def close_range_calibrated (context : DetectorContext) : Except Err Bool :=
  let has_dl := context.direct_leakage.isSome
  let has_pjcr := context.phase_jitter_comp_reference.isSome
  if has_dl ≠ has_pjcr then .error .runtimeErrorBad
  else .ok (has_dl && has_pjcr)

/-- `Detector._recorded_threshold_calibrated`. -/
def recorded_threshold_calibrated (context : DetectorContext) : Bool :=
  context.recorded_thresholds.isSome

/-- `Detector._has_close_range_measurement`. -/
def has_close_range_measurement (hwRaw : HwRawFun) (config : DetectorConfig) : Bool :=
  ((detector_to_session_config_and_processor_specs hwRaw config 1).2).any
    fun spec => spec.processor_config.measurement_type = .CLOSE_RANGE

/-- `Detector._has_recorded_threshold_mode`. -/
def has_recorded_threshold_mode (hwRaw : HwRawFun) (config : DetectorConfig) : Bool :=
  ((detector_to_session_config_and_processor_specs hwRaw config 1).2).any
    fun spec => spec.processor_config.threshold_method = .RECORDED

/-- `Detector.get_detector_status` (classmethod; pure in config and context,
except that `_close_range_calibrated` can raise). -/
def get_detector_status (hwRaw : HwRawFun) (config : DetectorConfig)
    (context : DetectorContext) : Except Err DetectorStatus := do
  let session_config := (detector_to_session_config_and_processor_specs hwRaw config 1).1
  if has_close_range_measurement hwRaw config then do
    let crc ← close_range_calibrated context
    let r : DetailedStatus × Bool :=
      if crc then
        if context.close_range_session_config_used ≠ some session_config then
          (.CLOSE_RANGE_CALIBRATION_CONFIG_MISMATCH, false)
        else if ¬recorded_threshold_calibrated context then
          (.RECORDED_THRESHOLD_MISSING, true)
        else if context.recorded_threshold_session_config_used ≠ some session_config then
          (.RECORDED_THRESHOLD_CONFIG_MISMATCH, false)
        else (.OK, true)
      else (.CLOSE_RANGE_CALIBRATION_MISSING, false)
    .ok { detector_state := r.1, ready_to_calibrate_close_range := true,
          ready_to_record_threshold := r.2,
          ready_to_start := r.1 = DetailedStatus.OK }
  else
    let r : DetailedStatus × Bool :=
      if has_recorded_threshold_mode hwRaw config then
        if recorded_threshold_calibrated context then
          if context.recorded_threshold_session_config_used ≠ some session_config then
            (.RECORDED_THRESHOLD_CONFIG_MISMATCH, true)
          else (.OK, true)
        else (.RECORDED_THRESHOLD_MISSING, true)
      else (.OK, false)
    .ok { detector_state := r.1, ready_to_calibrate_close_range := false,
          ready_to_record_threshold := r.2,
          ready_to_start := r.1 = DetailedStatus.OK }

/-- Mutable state of a `Detector` instance: its configuration, the planner
outputs installed by `update_config`, the `started` flag and the calibration
context.  The sensor client and aggregator are external collaborators; their
outputs enter the operations as explicit arguments. -/
structure DetectorState where
  detector_config : DetectorConfig
  sensor_id : ℤ
  started : Bool
  context : DetectorContext
  session_config : SessionConfig
  processor_specs : List ProcessorSpec

/-- `Detector._update_processor_mode`. -/
def update_processor_mode (processor_specs : List ProcessorSpec)
    (processor_mode : ProcessorMode) : List ProcessorSpec :=
  processor_specs.map fun spec =>
    { spec with processor_config := { spec.processor_config with processor_mode := processor_mode } }

/-- `Detector._filter_close_range_spec`: the close-range specs, `ValueError`
unless there is exactly one. -/
def filter_close_range_spec (specs : List ProcessorSpec) : Except Err (List ProcessorSpec) :=
  let close_range_specs := specs.filter
    fun spec => spec.processor_config.measurement_type = .CLOSE_RANGE
  if close_range_specs.length ≠ 1 then .error .valueIncorrectCloseRange
  else .ok close_range_specs

/-- `Detector._add_context_to_processor_spec`, one spec at a time with its
enumeration index (for `recorded_thresholds[idx]`). -/
def add_context_to_spec (context : DetectorContext) (session_config : SessionConfig)
    (idx : ℕ) (spec : ProcessorSpec) : Except Err ProcessorSpec := do
  if spec.processor_config.measurement_type = .CLOSE_RANGE ∧
      spec.processor_config.processor_mode = .DISTANCE_ESTIMATION then
    let crc ← close_range_calibrated context
    if ¬crc then .error .exceptionCloseRangeCal
    else
      match context.recorded_thresholds with
      | none => .error .exceptionRecordedCal
      | some rts =>
        let pctx : ProcessorContext :=
          { recorded_threshold := some (rts.getD idx []),
            direct_leakage := context.direct_leakage,
            phase_jitter_comp_ref := context.phase_jitter_comp_reference }
        .ok { spec with processor_context := some pctx }
  else if spec.processor_config.measurement_type = .CLOSE_RANGE ∧
      spec.processor_config.processor_mode = .RECORDED_THRESHOLD_CALIBRATION then
    let crc ← close_range_calibrated context
    if ¬crc then .error .exceptionCloseRangeCal
    else
      let pctx : ProcessorContext :=
        { direct_leakage := context.direct_leakage,
          phase_jitter_comp_ref := context.phase_jitter_comp_reference }
      .ok { spec with processor_context := some pctx }
  else if spec.processor_config.measurement_type = .FAR_RANGE ∧
      spec.processor_config.threshold_method = .RECORDED ∧
      recorded_threshold_calibrated context ∧
      context.recorded_threshold_session_config_used = some session_config then
    match context.recorded_thresholds with
    | none => .error .exceptionRecordedCal
    | some rts =>
      let pctx : ProcessorContext := { recorded_threshold := some (rts.getD idx []) }
      .ok { spec with processor_context := some pctx }
  else .ok spec

/-- `Detector._add_context_to_processor_spec` over the enumerated spec list. -/
def add_context_to_processor_spec_aux (context : DetectorContext)
    (session_config : SessionConfig) : ℕ → List ProcessorSpec →
    Except Err (List ProcessorSpec)
  | _, [] => .ok []
  | idx, spec :: rest => do
    let s ← add_context_to_spec context session_config idx spec
    let r ← add_context_to_processor_spec_aux context session_config (idx + 1) rest
    .ok (s :: r)

/-- `Detector._add_context_to_processor_spec`. -/
def add_context_to_processor_spec (st : DetectorState)
    (processor_specs : List ProcessorSpec) : Except Err (List ProcessorSpec) :=
  add_context_to_processor_spec_aux st.context st.session_config 0 processor_specs

/-- The externally produced leakage-calibration processor result consumed by
`calibrate_close_range` (built by the out-of-scope Aggregator pipeline). -/
structure LeakageCalibrationResult where
  direct_leakage : Option (List (ℚ × ℚ))
  phase_jitter_comp_reference : Option (List ℚ)

/-- `Detector.calibrate_close_range`: lifecycle guard, exactly-one-close-range
guard, one leakage-mode frame through the external pipeline (its result is the
`leak` argument), then the context update: `direct_leakage` and
`phase_jitter_comp_reference` from the result (the latter asserted present),
`close_range_session_config_used := session_config`, and
`recorded_thresholds := None`. -/
def calibrate_close_range (st : DetectorState) (leak : LeakageCalibrationResult) :
    Except Err DetectorState := do
  if st.started then .error .runtimeAlreadyStarted
  else do
    let close_range_spec ← filter_close_range_spec st.processor_specs
    let _spec := update_processor_mode close_range_spec .LEAKAGE_CALIBRATION
    match leak.phase_jitter_comp_reference with
    | none => .error .assertionError
    | some pjcr =>
      .ok { st with context :=
        { st.context with
          direct_leakage := leak.direct_leakage,
          phase_jitter_comp_reference := some pjcr,
          close_range_session_config_used := some st.session_config,
          recorded_thresholds := none } }

/-- `Detector.record_threshold`: lifecycle guard, mode update, context
attachment, N frames through the external pipeline (the final per-spec
`recorded_threshold` outputs are the `results` argument, asserted present),
then the context update. -/
def record_threshold (st : DetectorState) (results : List (Option (List ℚ))) :
    Except Err DetectorState := do
  if st.started then .error .runtimeAlreadyStarted
  else do
    let specs_updated := update_processor_mode st.processor_specs
      .RECORDED_THRESHOLD_CALIBRATION
    let _specs ← add_context_to_processor_spec st specs_updated
    let thresholds ← results.mapM fun r => match r with
      | none => .error Err.assertionError
      | some t => .ok t
    .ok { st with context :=
      { st.context with
        recorded_thresholds := some thresholds,
        recorded_threshold_session_config_used := some st.session_config } }

/-- `Detector._ensure_detector_is_calibrated` (with the detector's own
`hwRaw` model threaded through for `_has_close_range_measurement`). -/
def ensure_detector_is_calibrated (hwRaw : HwRawFun) (st : DetectorState) :
    Except Err Unit := do
  if has_close_range_measurement hwRaw st.detector_config then do
    let crc ← close_range_calibrated st.context
    if ¬(crc ∧ recorded_threshold_calibrated st.context) then .error .valueNotCalibrated
    else .ok ()
  else .ok ()
  if has_recorded_threshold_mode hwRaw st.detector_config ∧
      ¬recorded_threshold_calibrated st.context then .error .valueNotCalibrated
  else .ok ()

/-- `Detector._ensure_matching_session_config`. -/
def ensure_matching_session_config (hwRaw : HwRawFun) (st : DetectorState) :
    Except Err Unit := do
  if has_close_range_measurement hwRaw st.detector_config then
    if st.context.close_range_session_config_used ≠ some st.session_config then
      .error .valueConfigMismatch
    else .ok ()
  else .ok ()
  if has_recorded_threshold_mode hwRaw st.detector_config then
    if st.context.recorded_threshold_session_config_used ≠ some st.session_config then
      .error .valueConfigMismatch
    else .ok ()
  else .ok ()

/-- `Detector.start`: `RuntimeError` when already started, calibration and
config-match guards, context attachment, then the transition to started (the
session setup and recorder plumbing are external I/O). -/
def Detector.start (hwRaw : HwRawFun) (st : DetectorState) : Except Err DetectorState := do
  if st.started then .error .runtimeAlreadyStarted
  else do
    ensure_detector_is_calibrated hwRaw st
    ensure_matching_session_config hwRaw st
    let _specs ← add_context_to_processor_spec st st.processor_specs
    .ok { st with started := true }

/-- `Detector.get_next`: `RuntimeError` when not started; otherwise one frame
is pulled and processed by the external client/aggregator pair, whose fused
output is the `aggregator_result` argument, returned unchanged. -/
def Detector.get_next {α : Type} (st : DetectorState) (aggregator_result : α) :
    Except Err α :=
  if ¬st.started then .error .runtimeNotStarted
  else .ok aggregator_result

/-- `Detector.stop`: `RuntimeError` when not started; otherwise the session
is closed and `started` becomes `False`. -/
def Detector.stop (st : DetectorState) : Except Err DetectorState :=
  if ¬st.started then .error .runtimeAlreadyStopped
  else .ok { st with started := false }

/-! ## Sample inputs used by concrete instantiations -/

/-- A concrete instance of the uninterpreted hwaas-link-budget function. -/
def hwRawZero : HwRawFun := fun _ _ _ => 0

/-- The end-to-end scenario configuration:
`DetectorConfig(start_m=0.0, end_m=2.0, max_profile=PROFILE_3)`. -/
def sampleConfig131 : DetectorConfig :=
  { start_m := 0.0, end_m := 2.0, max_profile := .PROFILE_3 }

/-- A detector state over the default configuration. -/
def sampleState (started : Bool) : DetectorState :=
  { detector_config := {}, sensor_id := 1, started := started, context := {},
    session_config := (detector_to_session_config_and_processor_specs hwRawZero {} 1).1,
    processor_specs := (detector_to_session_config_and_processor_specs hwRawZero {} 1).2 }

/-- A detector state over the end-to-end scenario configuration (whose plan
has a close-range group). -/
def sampleState131 (started : Bool) : DetectorState :=
  { detector_config := sampleConfig131, sensor_id := 1, started := started, context := {},
    session_config :=
      (detector_to_session_config_and_processor_specs hwRawZero sampleConfig131 1).1,
    processor_specs :=
      (detector_to_session_config_and_processor_specs hwRawZero sampleConfig131 1).2 }

/-! ## Claim theorems -/

/-- C6: for every profile, breakpoint list and signal-quality value (and any
realization of the transcendental link-budget term), `_calculate_hwaas`
returns exactly `len(breakpoints) - 1` values, each clamped into
`[MIN_HWAAS, MAX_HWAAS] = [4, 511]`. -/
theorem C6_hwaas_clamped_and_sized (hwRaw : HwRawFun) (profile : Profile)
    (breakpoints : List ℤ) (signal_quality : ℚ) :
    (calculate_hwaas hwRaw profile breakpoints signal_quality).length
        = breakpoints.length - 1 ∧
    ∀ h ∈ calculate_hwaas hwRaw profile breakpoints signal_quality,
      4 ≤ h ∧ h ≤ 511 := by
  constructor
  · rw [calculate_hwaas, List.length_map, List.length_drop]
  · intro h hmem
    simp only [calculate_hwaas, List.mem_map] at hmem
    obtain ⟨b, _, rfl⟩ := hmem
    unfold npClip MIN_HWAAS MAX_HWAAS
    constructor
    · exact le_min (le_trans (by norm_num) (le_max_right _ _)) (by norm_num)
    · exact min_le_right _ _

/-- C2: the claim (and the source's own TODO) say the step length is snapped
DOWN onto the coarse set so that it never exceeds the FWHM/user limit; the
code instead snaps to the NEAREST member.  At `PROFILE_4` with no user cap
the FWHM limit is 19 but the code returns 24, and a user cap of 19 at
`PROFILE_5` is likewise exceeded (the snap-down result would be 12). -/
theorem C2_step_length_nearest_not_down :
    limit_step_length .PROFILE_4 none = 24 ∧
    pyInt (ENVELOPE_FWHM_M .PROFILE_4 / APPROX_BASE_STEP_LENGTH_M /
      MIN_NUM_POINTS_IN_ENVELOPE_FWHM_SPAN) = 19 ∧
    limit_step_length .PROFILE_5 (some 19) = 24 := by
  refine ⟨by with_unfolding_all decide, by with_unfolding_all decide,
    by with_unfolding_all decide⟩

/-- C8: `get_next` raises the not-started `RuntimeError` exactly when the
detector is not started (and otherwise returns the fused result); `stop`
raises exactly when not started and on success clears `started`; `start`
raises when already started. -/
theorem C8_lifecycle_guards {α : Type} (st : DetectorState) (hwRaw : HwRawFun)
    (aggregator_result : α) :
    (st.started = false →
      Detector.get_next st aggregator_result = .error .runtimeNotStarted) ∧
    (st.started = true →
      Detector.get_next st aggregator_result = .ok aggregator_result) ∧
    (st.started = false → Detector.stop st = .error .runtimeAlreadyStopped) ∧
    (st.started = true → Detector.stop st = .ok { st with started := false }) ∧
    (st.started = true → Detector.start hwRaw st = .error .runtimeAlreadyStarted) := by
  cases hst : st.started <;>
    simp [Detector.get_next, Detector.stop, Detector.start, hst]

/-- Witness for C8 at a concrete started state. -/
theorem C8_lifecycle_guards_witness :
    (sampleState true).started = true ∧
    Detector.stop (sampleState true) = .ok { sampleState true with started := false } :=
  ⟨rfl, (C8_lifecycle_guards (sampleState true) hwRawZero (0 : ℕ)).2.2.2.1 rfl⟩

/-- C7: with the detector not started and exactly one close-range spec,
`calibrate_close_range` succeeds and updates exactly `direct_leakage`,
`phase_jitter_comp_reference`, `close_range_session_config_used` and resets
`recorded_thresholds`, leaving `recorded_threshold_session_config_used`
untouched; with a close-range spec count other than one it raises the
`ValueError` without touching the context. -/
theorem C7_calibrate_close_range_effect (st : DetectorState)
    (leak : LeakageCalibrationResult) (pjcr : List ℚ)
    (hstarted : st.started = false) :
    ((st.processor_specs.filter
        fun s => s.processor_config.measurement_type = .CLOSE_RANGE).length = 1 →
      leak.phase_jitter_comp_reference = some pjcr →
      calibrate_close_range st leak = .ok { st with context :=
        { direct_leakage := leak.direct_leakage,
          phase_jitter_comp_reference := some pjcr,
          recorded_thresholds := none,
          recorded_threshold_session_config_used :=
            st.context.recorded_threshold_session_config_used,
          close_range_session_config_used := some st.session_config } }) ∧
    ((st.processor_specs.filter
        fun s => s.processor_config.measurement_type = .CLOSE_RANGE).length ≠ 1 →
      calibrate_close_range st leak = .error .valueIncorrectCloseRange) := by
  constructor
  · intro hcount hpjcr
    simp [calibrate_close_range, hstarted, filter_close_range_spec, hcount, hpjcr]
    try rfl
  · intro hcount
    simp [calibrate_close_range, hstarted, filter_close_range_spec, hcount]
    try rfl

/-- Witness for C7: the end-to-end configuration plans exactly one
close-range spec, and calibration on it succeeds. -/
theorem C7_calibrate_close_range_effect_witness :
    ((sampleState131 false).processor_specs.filter
        fun s => s.processor_config.measurement_type = .CLOSE_RANGE).length = 1 ∧
    ∃ st, calibrate_close_range (sampleState131 false)
      { direct_leakage := some [], phase_jitter_comp_reference := some [] } = .ok st := by
  have h := (C7_calibrate_close_range_effect (sampleState131 false)
    { direct_leakage := some [], phase_jitter_comp_reference := some [] } [] rfl).1
    (by with_unfolding_all decide) rfl
  exact ⟨by with_unfolding_all decide, ⟨_, h⟩⟩


/-- The unique quadratic through three points at abscissas `P-1, P, P+1`:
the closed-form coefficients used by `_interpolate_peaks` interpolate the
three ordinates. -/
theorem lagrange_three_point (P y0 y1 y2 a b c : ℚ)
    (ha : a = ((P - 1) * (y2 - y1) + P * (y0 - y2) + (P + 1) * (y1 - y0)) /
      ((P - 1 - P) * (P - 1 - (P + 1)) * (P - (P + 1))))
    (hb : b = (y1 - y0) / (P - (P - 1)) - a * (P - 1 + P))
    (hc : c = y0 - a * (P - 1) ^ 2 - b * (P - 1)) :
    (a * (P - 1) ^ 2 + b * (P - 1) + c = y0) ∧ (a * P ^ 2 + b * P + c = y1) ∧
      (a * (P + 1) ^ 2 + b * (P + 1) + c = y2) := by
  have hD : (P - 1 - P) * (P - 1 - (P + 1)) * (P - (P + 1)) = -2 := by ring
  have hE : P - (P - 1) = 1 := by ring
  rw [hD] at ha
  rw [hE] at hb
  subst hc
  subst hb
  subst ha
  refine ⟨by ring, by ring, by ring⟩

/-- Quadratics agreeing at `P-1, P, P+1` have identical coefficients. -/
theorem quad_unique (P a b c a2 b2 c2 : ℚ)
    (h0 : a2 * (P - 1) ^ 2 + b2 * (P - 1) + c2 = a * (P - 1) ^ 2 + b * (P - 1) + c)
    (h1 : a2 * P ^ 2 + b2 * P + c2 = a * P ^ 2 + b * P + c)
    (h2 : a2 * (P + 1) ^ 2 + b2 * (P + 1) + c2 = a * (P + 1) ^ 2 + b * (P + 1) + c) :
    a2 = a ∧ b2 = b ∧ c2 = c := by
  have hda : a2 = a := by linear_combination (h0 - 2 * h1 + h2) / 2
  have hdb : b2 = b := by
    linear_combination (h2 - h0) / 2 - 2 * P * ((h0 - 2 * h1 + h2) / 2)
  have hdc : c2 = c := by
    linear_combination h1 + P ^ 2 * ((h0 - 2 * h1 + h2) / 2) - P * ((h2 - h0) / 2)
  exact ⟨hda, hdb, hdc⟩

/-- C4 (counterexample): the claim says the reported distance is
`(segment_start_point + vertex_offset * step_length) * base_step_length_m`
in meters; on the perfect parabola `y = -(x-5)^2 + 10` (peak index 5,
start point 0, step length 1), the code reports `5 * 2.5 = 12.5` — the
hard-coded constant `2.5` (millimeters per base step) — while the claimed
formula gives `5 * 2.5e-3 = 0.0125`. -/
theorem C4_distance_not_base_step_m :
    interpolate_peaks [0, 0, 0, 0, 9, 10, 9] [5] 0 1 = ([12.5], [10]) ∧
    ((0 : ℚ) + 5 * 1) * APPROX_BASE_STEP_LENGTH_M = 0.0125 ∧
    (12.5 : ℚ) ≠ 0.0125 := by
  refine ⟨by with_unfolding_all decide, by with_unfolding_all decide,
    by with_unfolding_all decide⟩

/-- C4 (amended): for every peak index `1 <= p <= len-2`, `_interpolate_peaks`
reports the vertex of the unique quadratic through the three samples centered
on the peak: there are coefficients a, b, c whose quadratic interpolates the
three samples (uniquely so), whose derivative vanishes at the reported vertex
`-b/(2a)` whenever `a` is nonzero, and the result is distance
`(start_point + vertex*step_length) * 2.5` — the constant `2.5`
(millimeter-scale), not `base_step_length_m` — and amplitude equal to the
quadratic evaluated at the vertex. -/
theorem C4_interpolate_vertex (abs_sweep : List ℚ) (p : ℕ)
    (start_point step_length : ℤ) (_hp : 1 ≤ p) (_hlen : p + 1 < abs_sweep.length) :
    ∃ a b c : ℚ,
      interpolate_peaks abs_sweep [p] start_point step_length =
        ([((start_point : ℚ) + -b / (2 * a) * (step_length : ℚ)) * 2.5],
         [a * (-b / (2 * a)) ^ 2 + b * (-b / (2 * a)) + c]) ∧
      a * ((p : ℚ) - 1) ^ 2 + b * ((p : ℚ) - 1) + c = abs_sweep.getD (p - 1) 0 ∧
      a * (p : ℚ) ^ 2 + b * (p : ℚ) + c = abs_sweep.getD p 0 ∧
      a * ((p : ℚ) + 1) ^ 2 + b * ((p : ℚ) + 1) + c = abs_sweep.getD (p + 1) 0 ∧
      (a ≠ 0 → 2 * a * (-b / (2 * a)) + b = 0) ∧
      (∀ a2 b2 c2 : ℚ,
        a2 * ((p : ℚ) - 1) ^ 2 + b2 * ((p : ℚ) - 1) + c2 = abs_sweep.getD (p - 1) 0 →
        a2 * (p : ℚ) ^ 2 + b2 * (p : ℚ) + c2 = abs_sweep.getD p 0 →
        a2 * ((p : ℚ) + 1) ^ 2 + b2 * ((p : ℚ) + 1) + c2 = abs_sweep.getD (p + 1) 0 →
        a2 = a ∧ b2 = b ∧ c2 = c) := by
  set P : ℚ := (p : ℚ) with hPdef
  set y0 := abs_sweep.getD (p - 1) 0 with hy0
  set y1 := abs_sweep.getD p 0 with hy1
  set y2 := abs_sweep.getD (p + 1) 0 with hy2
  set A := ((P - 1) * (y2 - y1) + P * (y0 - y2) + (P + 1) * (y1 - y0)) /
      ((P - 1 - P) * (P - 1 - (P + 1)) * (P - (P + 1))) with hA
  set B := (y1 - y0) / (P - (P - 1)) - A * (P - 1 + P) with hB
  set C := y0 - A * (P - 1) ^ 2 - B * (P - 1) with hC
  obtain ⟨e0, e1, e2⟩ := lagrange_three_point P y0 y1 y2 A B C hA hB hC
  refine ⟨A, B, C, ?_, e0, e1, e2, ?_, ?_⟩
  · rfl
  · intro ha
    field_simp
    ring
  · intro a2 b2 c2 f0 f1 f2
    exact quad_unique P A B C a2 b2 c2 (f0.trans e0.symm) (f1.trans e1.symm)
      (f2.trans e2.symm)

/-- Witness for C4 (amended) on the perfect parabola. -/
theorem C4_interpolate_vertex_witness :
    1 ≤ 5 ∧ 5 + 1 < ([0, 0, 0, 0, 9, 10, 9] : List ℚ).length ∧
    ∃ a b c : ℚ, interpolate_peaks [0, 0, 0, 0, 9, 10, 9] [5] 0 1 =
      ([((0 : ℚ) + -b / (2 * a) * (1 : ℚ)) * 2.5],
       [a * (-b / (2 * a)) ^ 2 + b * (-b / (2 * a)) + c]) :=
  ⟨by decide, by decide, by
    obtain ⟨a, b, c, hout, -⟩ := C4_interpolate_vertex [0, 0, 0, 0, 9, 10, 9] 5 0 1
      (by decide) (by decide)
    exact ⟨a, b, c, hout⟩⟩


/-- Claim-side condition: all subsweeps share one profile. -/
abbrev sharesProfile (cs : List SubsweepConfig) : Prop :=
  ∀ c ∈ cs, c.profile = (cs.headD default).profile

/-- Claim-side condition: all subsweeps share one step length. -/
abbrev sharesStepLength (cs : List SubsweepConfig) : Prop :=
  ∀ c ∈ cs, c.step_length = (cs.headD default).step_length

/-- Claim-side condition: phase enhancement enabled on every subsweep. -/
abbrev allPhaseEnhanced (cs : List SubsweepConfig) : Prop :=
  ∀ c ∈ cs, c.phase_enhancement = true

/-- Claim-side condition: each subsweep starts where the previous one ends
(previous start plus previous point count times the shared step length). -/
abbrev contiguousChain (step : ℤ) (cs : List SubsweepConfig) : Prop :=
  List.Chain' (fun c d => d.start_point = c.start_point + c.num_points * step) cs

theorem get_profile_ok_iff (cs : List SubsweepConfig) :
    (∃ pr, get_profile cs = .ok pr) ↔ (cs ≠ [] ∧ sharesProfile cs) := by
  cases cs with
  | nil => simp [get_profile]
  | cons c rest =>
    simp only [get_profile, ne_eq, reduceCtorEq, not_false_iff, true_and]
    by_cases h : rest.all fun d => d.profile = c.profile
    · simp only [h, if_true]
      constructor
      · intro _
        intro d hd
        simp only [List.headD_cons]
        rcases List.mem_cons.mp hd with rfl | h2
        · rfl
        · exact of_decide_eq_true ((List.all_eq_true.mp h) _ h2)
      · intro _; exact ⟨c.profile, rfl⟩
    · simp only [h, if_false]
      constructor
      · rintro ⟨pr, hpr⟩; cases hpr
      · intro hall
        exfalso
        apply h
        rw [List.all_eq_true]
        intro d hd
        exact decide_eq_true (hall d (List.mem_cons_of_mem _ hd))


theorem get_profile_ok_val (cs : List SubsweepConfig) (pr : Profile)
    (h : get_profile cs = .ok pr) : pr = (cs.headD default).profile := by
  cases cs with
  | nil => cases h
  | cons c rest =>
    simp only [get_profile] at h
    by_cases hall : rest.all fun d => d.profile = c.profile
    · rw [if_pos hall] at h; cases h; rfl
    · rw [if_neg hall] at h; cases h

theorem get_step_length_ok_iff (cs : List SubsweepConfig) :
    (∃ sl, get_step_length cs = .ok sl) ↔ (cs ≠ [] ∧ sharesStepLength cs) := by
  cases cs with
  | nil => simp [get_step_length]
  | cons c rest =>
    simp only [get_step_length, ne_eq, reduceCtorEq, not_false_iff, true_and]
    by_cases h : rest.all fun d => d.step_length = c.step_length
    · simp only [h, if_true]
      constructor
      · intro _
        intro d hd
        simp only [List.headD_cons]
        rcases List.mem_cons.mp hd with rfl | h2
        · rfl
        · exact of_decide_eq_true ((List.all_eq_true.mp h) _ h2)
      · intro _; exact ⟨c.step_length, rfl⟩
    · simp only [h, if_false]
      constructor
      · rintro ⟨sl, hsl⟩; cases hsl
      · intro hall
        exfalso
        apply h
        rw [List.all_eq_true]
        intro d hd
        exact decide_eq_true (hall d (List.mem_cons_of_mem _ hd))

theorem get_step_length_ok_val (cs : List SubsweepConfig) (sl : ℤ)
    (h : get_step_length cs = .ok sl) : sl = (cs.headD default).step_length := by
  cases cs with
  | nil => cases h
  | cons c rest =>
    simp only [get_step_length] at h
    by_cases hall : rest.all fun d => d.step_length = c.step_length
    · rw [if_pos hall] at h; cases h; rfl
    · rw [if_neg hall] at h; cases h

theorem check_contiguous_some_chain (step : ℤ) (cs : List SubsweepConfig) :
    ∀ e : ℤ, check_contiguous step (some e) cs = .ok () ↔
      ((cs ≠ [] → (cs.headD default).start_point = e) ∧ contiguousChain step cs) := by
  induction cs with
  | nil => intro e; simp [check_contiguous, contiguousChain]
  | cons c rest ih =>
    intro e
    simp only [check_contiguous]
    by_cases h : c.start_point = e
    · rw [if_neg (by simpa using h)]
      rw [ih (c.start_point + c.num_points * step)]
      simp only [contiguousChain]
      rw [List.chain'_cons']
      cases rest with
      | nil => simp [h]
      | cons d r2 =>
        simp only [ne_eq, reduceCtorEq, not_false_iff, true_implies, List.headD_cons,
          List.head?_cons, Option.mem_def, Option.some.injEq, forall_eq']
        constructor
        · rintro ⟨h1, h2⟩
          exact ⟨h, h1, h2⟩
        · rintro ⟨-, h1, h2⟩
          exact ⟨h1, h2⟩
    · rw [if_pos (by simpa using h)]
      constructor
      · intro hcon; cases hcon
      · rintro ⟨hh, -⟩
        exact absurd (hh (by simp)) h

theorem check_contiguous_none_chain (step : ℤ) (cs : List SubsweepConfig) :
    check_contiguous step none cs = .ok () ↔ contiguousChain step cs := by
  cases cs with
  | nil => simp [check_contiguous, contiguousChain]
  | cons c rest =>
    show check_contiguous step (some (c.start_point + c.num_points * step)) rest = .ok () ↔ _
    rw [check_contiguous_some_chain]
    simp only [contiguousChain]
    rw [List.chain'_cons']
    cases rest with
    | nil => simp
    | cons d r2 =>
      simp only [ne_eq, reduceCtorEq, not_false_iff, true_implies, List.headD_cons,
        List.head?_cons, Option.mem_def, Option.some.injEq, forall_eq']


theorem except_ok_bind {α β : Type} (a : α) (f : α → Except Err β) :
    (Except.ok a >>= f) = f a := rfl

theorem except_error_bind {α β : Type} (e : Err) (f : α → Except Err β) :
    ((Except.error e : Except Err α) >>= f) = .error e := rfl

theorem get_step_length_eq (cs : List SubsweepConfig) (h1 : cs ≠ [])
    (h2 : sharesStepLength cs) :
    get_step_length cs = .ok (cs.headD default).step_length := by
  obtain ⟨sl, hsl⟩ := (get_step_length_ok_iff cs).mpr ⟨h1, h2⟩
  have := get_step_length_ok_val cs sl hsl
  rw [this] at hsl
  exact hsl

theorem get_profile_eq (cs : List SubsweepConfig) (h1 : cs ≠ [])
    (h2 : sharesProfile cs) :
    get_profile cs = .ok (cs.headD default).profile := by
  obtain ⟨pr, hpr⟩ := (get_profile_ok_iff cs).mpr ⟨h1, h2⟩
  have := get_profile_ok_val cs pr hpr
  rw [this] at hpr
  exact hpr

theorem validate_ok_iff (cs : List SubsweepConfig) :
    validate cs = .ok () ↔
      (cs ≠ [] ∧ sharesStepLength cs ∧
        contiguousChain (cs.headD default).step_length cs ∧ allPhaseEnhanced cs) := by
  unfold validate validate_range
  constructor
  · intro h
    cases hsl : get_step_length cs with
    | error e =>
      rw [hsl] at h
      rw [except_error_bind, except_error_bind] at h
      cases h
    | ok sl =>
      have hne := (get_step_length_ok_iff cs).mp ⟨sl, hsl⟩
      have hv := get_step_length_ok_val cs sl hsl
      subst hv
      rw [hsl, except_ok_bind] at h
      by_cases hphase : cs.all (fun c => c.phase_enhancement)
      · cases hcc : check_contiguous (cs.headD default).step_length none cs with
        | error e => rw [hcc, except_error_bind] at h; cases h
        | ok u =>
          refine ⟨hne.1, hne.2, ?_, ?_⟩
          · exact (check_contiguous_none_chain _ cs).mp (by cases u; exact hcc)
          · intro c hc
            exact List.all_eq_true.mp hphase c hc
      · exfalso
        cases hcc : check_contiguous (cs.headD default).step_length none cs with
        | error e => rw [hcc, except_error_bind] at h; cases h
        | ok u =>
          rw [hcc, except_ok_bind] at h
          rw [if_neg hphase] at h
          cases h
  · rintro ⟨h1, h2, h3, h4⟩
    rw [get_step_length_eq cs h1 h2, except_ok_bind]
    rw [(check_contiguous_none_chain _ cs).mpr h3, except_ok_bind]
    rw [if_pos (List.all_eq_true.mpr fun c hc => h4 c hc)]

theorem init_de_ok_iff (pc : ProcessorConfig) (ctx : Option ProcessorContext)
    (profile : Profile) (slm asm : ℚ) (npts : ℤ) :
    (∃ r, init_process_distance_estimation pc ctx profile slm asm npts = .ok r) ↔
      ((pc.threshold_method = .RECORDED →
          ∃ c rt, ctx = some c ∧ c.recorded_threshold = some rt) ∧
       (pc.threshold_method = .FIXED → 0 ≤ npts) ∧
       (pc.threshold_method = .CFAR → slm ≠ 0)) := by
  cases hm : pc.threshold_method with
  | RECORDED =>
    cases ctx with
    | none => simp [init_process_distance_estimation, hm]
    | some c =>
      cases hrt : c.recorded_threshold with
      | none => simp [init_process_distance_estimation, hm, hrt]
      | some rt => simp [init_process_distance_estimation, hm, hrt]
  | FIXED =>
    by_cases hn : npts < 0
    · simp [init_process_distance_estimation, hm, hn]
    · simp [init_process_distance_estimation, hm, hn]
      omega
  | CFAR =>
    by_cases hz : slm = 0
    · simp [init_process_distance_estimation, hm, hz]
    · simp [init_process_distance_estimation, hm, hz]


theorem except_bind_ok_exists {α β : Type} (e : Except Err α) (g : α → β) :
    (∃ v, (e >>= fun r => Except.ok (g r)) = .ok v) ↔ ∃ r, e = .ok r := by
  cases e with
  | error err => simp [except_error_bind]
  | ok r => simp [except_ok_bind]

/-- C9 (amended): processor construction succeeds if and only if the selected
subsweep list is nonempty and satisfies the four subsweep conditions (shared
profile, shared step length, phase enhancement everywhere, point-contiguity),
the metadata carries a base step length, the `butter` digital critical
frequency lies strictly between 0 and 1, and the mode-specific setup succeeds:
in distance-estimation mode the RECORDED threshold method requires a recorded
threshold in the context, the FIXED method requires a non-negative cropped
point count (`np.full` rejects negative dimensions), the CFAR method requires
a non-zero base step length (Python float division by zero); and
recorded-threshold-calibration mode requires a non-negative cropped point
count (`np.zeros`).  (The original claim's "if and only if" over the four
subsweep conditions alone fails: see the counterexample.) -/
theorem C9_processor_validation (cs : List SubsweepConfig) (base : Option ℚ)
    (pc : ProcessorConfig) (ctx : Option ProcessorContext) :
    (∃ info, processor_init cs base pc ctx = .ok info) ↔
      (cs ≠ [] ∧ sharesProfile cs ∧ sharesStepLength cs ∧ allPhaseEnhanced cs ∧
       contiguousChain (cs.headD default).step_length cs ∧ base ≠ none ∧
       (0 < filter_wnc (cs.headD default).profile (cs.headD default).step_length ∧
        filter_wnc (cs.headD default).profile (cs.headD default).step_length < 1) ∧
       (pc.processor_mode = .DISTANCE_ESTIMATION → pc.threshold_method = .RECORDED →
         ∃ c rt, ctx = some c ∧ c.recorded_threshold = some rt) ∧
       (pc.processor_mode = .DISTANCE_ESTIMATION → pc.threshold_method = .FIXED →
         0 ≤ num_points_cropped_of cs) ∧
       (pc.processor_mode = .DISTANCE_ESTIMATION → pc.threshold_method = .CFAR →
         base ≠ some 0) ∧
       (pc.processor_mode = .RECORDED_THRESHOLD_CALIBRATION →
         0 ≤ num_points_cropped_of cs)) := by
  unfold processor_init
  cases hval : validate cs with
  | error e =>
    rw [except_error_bind]
    constructor
    · rintro ⟨info, hinfo⟩; cases hinfo
    · rintro ⟨h1, h2, h3, h4, h5, -⟩
      exact absurd ((validate_ok_iff cs).mpr ⟨h1, h3, h5, h4⟩)
        (by rw [hval]; intro hc; cases hc)
  | ok u =>
    cases u
    obtain ⟨h1, h3, h5, h4⟩ := (validate_ok_iff cs).mp hval
    rw [except_ok_bind]
    cases hprof : get_profile cs with
    | error e =>
      rw [except_error_bind]
      constructor
      · rintro ⟨info, hinfo⟩; cases hinfo
      · rintro ⟨h1, h2, -⟩
        obtain ⟨pr, hpr⟩ := (get_profile_ok_iff cs).mpr ⟨h1, h2⟩
        rw [hpr] at hprof; cases hprof
    | ok pr =>
      have h2 := ((get_profile_ok_iff cs).mp ⟨pr, hprof⟩).2
      have hprv := get_profile_ok_val cs pr hprof
      subst hprv
      rw [except_ok_bind]
      rw [get_step_length_eq cs h1 h3, except_ok_bind]
      have hRHS : ∀ P : Prop, ((cs ≠ [] ∧ sharesProfile cs ∧ sharesStepLength cs ∧
          allPhaseEnhanced cs ∧ contiguousChain (cs.headD default).step_length cs ∧
          P) ↔ P) := by
        intro P
        constructor
        · rintro ⟨-, -, -, -, -, h⟩; exact h
        · intro h; exact ⟨h1, h2, h3, h4, h5, h⟩
      rw [hRHS]
      cases base with
      | none =>
        dsimp only
        constructor
        · rintro ⟨info, hinfo⟩; cases hinfo
        · rintro ⟨h6, -⟩; exact absurd rfl h6
      | some b =>
        dsimp only
        have hsome : (some b ≠ (none : Option ℚ)) := fun hc => Option.noConfusion hc
        rw [and_iff_right hsome]
        by_cases hw : filter_wnc (cs.headD default).profile
              (cs.headD default).step_length ≤ 0 ∨
            1 ≤ filter_wnc (cs.headD default).profile (cs.headD default).step_length
        · rw [if_pos hw]
          constructor
          · rintro ⟨info, hinfo⟩; cases hinfo
          · rintro ⟨⟨hw1, hw2⟩, -⟩
            rcases hw with hw | hw <;> linarith
        · rw [if_neg hw]
          push_neg at hw
          rw [and_iff_right hw]
          have hstep : ((cs.headD default).step_length : ℚ) ≠ 0 := by
            intro h0
            have hpos := hw.1
            rw [filter_wnc, h0, mul_zero, zero_div] at hpos
            exact lt_irrefl 0 hpos
          cases hmode : pc.processor_mode with
          | DISTANCE_ESTIMATION =>
            dsimp only
            rw [except_bind_ok_exists, init_de_ok_iff]
            simp only [num_points_cropped_of]
            have hslm : ((((cs.headD default).step_length : ℚ) * b ≠ 0) ↔
                ((some b : Option ℚ) ≠ some 0)) := by
              constructor
              · intro h hc
                apply h
                rw [Option.some_inj.mp hc, mul_zero]
              · intro h hm
                rcases mul_eq_zero.mp hm with h0 | h0
                · exact hstep h0
                · exact h (by rw [h0])
            rw [hslm]
            simp
          | LEAKAGE_CALIBRATION =>
            dsimp only
            constructor
            · intro _
              refine ⟨?_, ?_, ?_, ?_⟩ <;> (intro h; cases h)
            · intro _
              exact ⟨_, rfl⟩
          | RECORDED_THRESHOLD_CALIBRATION =>
            dsimp only
            by_cases hneg : (cs.map fun c => c.num_points).sum -
                2 * distance_filter_init_margin_p (cs.headD default).profile
                  (cs.headD default).step_length < 0
            · rw [if_pos hneg]
              constructor
              · rintro ⟨info, hinfo⟩; cases hinfo
              · rintro ⟨-, -, -, h11⟩
                have hge := h11 rfl
                simp only [num_points_cropped_of] at hge
                omega
            · rw [if_neg hneg]
              constructor
              · intro _
                refine ⟨?_, ?_, ?_, ?_⟩
                · intro h; cases h
                · intro h; cases h
                · intro h; cases h
                · intro _
                  simp only [num_points_cropped_of]
                  omega
              · intro _
                exact ⟨_, rfl⟩


/-- A single valid subsweep configuration (satisfies all four subsweep
conditions). -/
def c9Subsweep : SubsweepConfig :=
  { start_point := 0, num_points := 10, step_length := 1, profile := .PROFILE_1,
    hwaas := 4, receiver_gain := 5, phase_enhancement := true }

/-- C9 (counterexample): a subsweep list satisfying all four conditions of
the claim on which construction nevertheless raises — the RECORDED threshold
method with no context fails inside `_init_process_distance_estimation`, so
\"construction succeeds without raising\" does not follow from the four
conditions alone. -/
theorem C9_validation_not_sufficient :
    ([c9Subsweep] ≠ [] ∧ sharesProfile [c9Subsweep] ∧ sharesStepLength [c9Subsweep] ∧
     allPhaseEnhanced [c9Subsweep] ∧ contiguousChain 1 [c9Subsweep]) ∧
    processor_init [c9Subsweep] (some APPROX_BASE_STEP_LENGTH_M)
      { threshold_method := .RECORDED } none = .error .missingRecordedThreshold := by
  constructor
  · refine ⟨by simp, ?_, ?_, ?_, ?_⟩ <;>
      simp [sharesProfile, sharesStepLength, allPhaseEnhanced, contiguousChain, c9Subsweep]
  · with_unfolding_all rfl


/-- Indexing a mapped range with a default. -/
theorem getD_range_map {β : Type} (n : ℕ) (f : ℕ → β) (i : ℕ) (dflt : β) :
    (((List.range n).map f).getD i dflt) = if i < n then f i else dflt := by
  by_cases h : i < n
  · rw [if_pos h, List.getD_eq_getElem?_getD, List.getElem?_map, List.getElem?_range h]
    rfl
  · rw [if_neg h, List.getD_eq_getElem?_getD, List.getElem?_map,
      List.getElem?_eq_none (by simpa using not_lt.mp h)]
    rfl

/-- The CFAR threshold entry at `i` is NaN exactly outside
`[max(idx_cfar_pts), end_idx)`. -/
theorem cfar_tget (a : List ℚ) (pts : List ℕ) (alpha : ℚ) (one_side : Bool)
    (noise : Option ℚ) (i : ℕ) :
    tget (calculate_cfar_threshold a pts alpha one_side noise) i = none ↔
      (i < maxNat pts ∨ (if one_side then a.length else a.length - maxNat pts) ≤ i) := by
  unfold tget calculate_cfar_threshold
  rw [getD_range_map]
  by_cases h : i < a.length
  · rw [if_pos h]
    by_cases hin : maxNat pts ≤ i ∧ i < (if one_side then a.length else a.length - maxNat pts)
    · rw [if_pos hin]
      simp only [reduceCtorEq, false_iff]
      omega
    · rw [if_neg hin]
      simp only [true_iff]
      omega
  · rw [if_neg h]
    simp only [true_iff]
    cases one_side <;> simp <;> omega


/-- The argmax scan keeps its running best when nothing improves on it. -/
theorem argmaxAux_no_improve (xs : List ℚ) :
    ∀ (cur best : ℕ) (bv : ℚ), (∀ x ∈ xs, ¬ bv < x) → argmaxAux xs cur best bv = best := by
  induction xs with
  | nil => intro cur best bv _; rfl
  | cons x xs ih =>
    intro cur best bv h
    rw [argmaxAux, if_neg (h x (List.mem_cons_self x xs))]
    exact ih _ _ _ fun y hy => h y (List.mem_cons_of_mem _ hy)

/-- With no element above the head, `np.argmax` returns index 0. -/
theorem npArgmax_of_le_head (x : ℚ) (xs : List ℚ) (h : ∀ y ∈ xs, y ≤ x) :
    npArgmax (x :: xs) = 0 :=
  argmaxAux_no_improve xs 1 0 x fun y hy => not_lt.mpr (h y hy)

/-- When the inner widening loop records a peak while the run `[d, u)` is
constant, the recorded peak index is `d` itself. -/
theorem innerScan_peak (a : List ℚ) (t : List (Option ℚ)) (N d : ℕ) :
    ∀ (k u : ℕ), N - u ≤ k → d < u →
      (∀ i, d ≤ i → i < u → a.getD i 0 = a.getD d 0) →
      ∀ u2 pk, innerScan a t N d u = (u2, some pk) → pk = d := by
  intro k
  induction k with
  | zero =>
    intro u hk _ _ u2 pk h
    rw [innerScan, dif_pos (by omega : N - 1 ≤ u)] at h
    simp at h
  | succ k ih =>
    intro u hk hdu hinv u2 pk h
    rw [innerScan] at h
    by_cases h1 : N - 1 ≤ u
    · rw [dif_pos h1] at h; simp at h
    rw [dif_neg h1] at h
    by_cases h2 : tget t u = none
    · rw [if_pos h2] at h; simp at h
    rw [if_neg h2] at h
    by_cases h3 : leOpt (a.getD u 0) (tget t u) = true
    · rw [if_pos h3] at h; simp at h
    rw [if_neg h3] at h
    by_cases h4 : a.getD d 0 < a.getD u 0
    · rw [if_pos h4] at h; simp at h
    rw [if_neg h4] at h
    by_cases h5 : a.getD u 0 < a.getD d 0
    · rw [if_pos h5] at h
      have hpk : npArgmax ((a.drop d).take (u - d)) + d = pk := by
        have h6 := congrArg Prod.snd h
        simpa using h6
      have hz : npArgmax ((a.drop d).take (u - d)) = 0 := by
        cases hsl : (a.drop d).take (u - d) with
        | nil => rfl
        | cons x xs =>
          apply npArgmax_of_le_head
          intro y hy
          have hlen : (x :: xs).length = min (u - d) (a.length - d) := by
            rw [← hsl, List.length_take, List.length_drop]
          have hx : a.getD d 0 = x := by
            have h0 : ((a.drop d).take (u - d))[0]? = some x := by rw [hsl]; simp
            rw [List.getElem?_take_of_lt (by omega : 0 < u - d), List.getElem?_drop] at h0
            rw [Nat.add_zero] at h0
            rw [List.getD_eq_getElem?_getD, h0]
            rfl
          obtain ⟨j, hj, hyj⟩ := List.mem_iff_getElem.mp hy
          have hbound : j + 1 < u - d := by
            have hlen2 : (x :: xs).length ≤ u - d := by
              rw [hlen]; exact min_le_left _ _
            simp only [List.length_cons] at hlen2
            omega
          have h1y : ((a.drop d).take (u - d))[j + 1]? = some y := by
            rw [hsl, List.getElem?_cons_succ, List.getElem?_eq_getElem hj, hyj]
          rw [List.getElem?_take_of_lt hbound, List.getElem?_drop] at h1y
          have hy_eq : a.getD (d + (j + 1)) 0 = y := by
            rw [List.getD_eq_getElem?_getD, h1y]
            rfl
          exact le_of_eq
            (by rw [← hy_eq, hinv (d + (j + 1)) (by omega) (by omega), hx])
      omega
    · rw [if_neg h5] at h
      refine ih (u + 1) (by omega) (by omega) ?_ u2 pk h
      intro i hi1 hi2
      rcases Nat.lt_succ_iff_lt_or_eq.mp hi2 with hlt | heq
      · exact hinv i hi1 hlt
      · subst heq
        exact le_antisymm (not_lt.mp h4) (not_lt.mp h5)


/-- Peak safety for the outer scan: when the threshold's defined region is an
interval (convex), every returned peak index has a defined threshold that the
envelope strictly exceeds. -/
theorem find_peaks_aux_safe (a : List ℚ) (t : List (Option ℚ)) (N : ℕ)
    (hconv : ∀ i j k2, i ≤ j → j ≤ k2 → tget t i ≠ none → tget t k2 ≠ none →
      tget t j ≠ none) :
    ∀ (k d : ℕ), N - d ≤ k → ∀ p ∈ find_peaks_aux a t N d,
      ∃ v, tget t p = some v ∧ v < a.getD p 0 := by
  intro k
  induction k with
  | zero =>
    intro d hk p hp
    rw [find_peaks_aux, dif_pos (by omega : N - 1 ≤ d)] at hp
    cases hp
  | succ k ih =>
    intro d hk p hp
    rw [find_peaks_aux] at hp
    by_cases h1 : N - 1 ≤ d
    · rw [dif_pos h1] at hp; cases hp
    rw [dif_neg h1] at hp
    by_cases h2 : tget t (d - 1) = none
    · rw [if_pos h2] at hp
      exact ih (d + 1) (by omega) p hp
    rw [if_neg h2] at hp
    by_cases h3 : tget t (d + 1) = none
    · rw [if_pos h3] at hp; cases hp
    rw [if_neg h3] at hp
    by_cases h4 : leOpt (a.getD d 0) (tget t d) = true
    · rw [if_pos h4] at hp
      exact ih (d + 2) (by omega) p hp
    rw [if_neg h4] at hp
    by_cases h5 : leOpt (a.getD (d - 1) 0) (tget t (d - 1)) = true
    · rw [if_pos h5] at hp
      exact ih (d + 1) (by omega) p hp
    rw [if_neg h5] at hp
    by_cases h6 : a.getD d 0 ≤ a.getD (d - 1) 0
    · rw [if_pos h6] at hp
      exact ih (d + 1) (by omega) p hp
    rw [if_neg h6] at hp
    rw [List.mem_append] at hp
    have hge := innerScan_fst_ge a t N d (d + 1)
    cases hr : innerScan a t N d (d + 1) with
    | mk u2 opt =>
      rw [hr] at hp hge
      rcases hp with hp | hp
      · cases opt with
        | none => cases hp
        | some pk =>
          have hpd : pk = d := innerScan_peak a t N d (N - (d + 1)) (d + 1) le_rfl
            (by omega)
            (fun i hi1 hi2 => by
              have : i = d := by omega
              rw [this]) u2 pk hr
          have hppk : p = pk := by simpa using hp
          have htd : tget t d ≠ none :=
            hconv (d - 1) d (d + 1) (by omega) (by omega) h2 h3
          obtain ⟨v, hv⟩ := Option.ne_none_iff_exists'.mp htd
          refine ⟨v, ?_, ?_⟩
          · rw [hppk, hpd]; exact hv
          · rw [hv] at h4
            simp only [leOpt, decide_eq_true_eq] at h4
            rw [hppk, hpd]
            exact lt_of_not_le h4
      · exact ih u2 (by omega) p hp

/-- C5: on a CFAR threshold, NaN (`none`) entries sit exactly at the indices
whose averaging window is incomplete — below `max(idx_cfar_pts)` and, in the
two-sided case, within `max(idx_cfar_pts)` of the right edge — and
`_find_peaks` never returns an index with a NaN threshold: every returned
peak has a defined threshold value strictly below the envelope there. -/
theorem C5_cfar_nan_and_peaks (a : List ℚ) (pts : List ℕ) (alpha : ℚ)
    (one_side : Bool) (noise : Option ℚ) (hpts : pts ≠ []) :
    (∀ i, i < a.length →
      (tget (calculate_cfar_threshold a pts alpha one_side noise) i = none ↔
        (i < maxNat pts ∨ (one_side = false ∧ a.length - maxNat pts ≤ i)))) ∧
    (∀ p ∈ find_peaks a (calculate_cfar_threshold a pts alpha one_side noise),
      ∃ v, tget (calculate_cfar_threshold a pts alpha one_side noise) p = some v ∧
        v < a.getD p 0) := by
  have hpts2 : pts ≠ [] := hpts
  constructor
  · intro i hi
    rw [cfar_tget]
    cases one_side
    all_goals simp
    all_goals omega
  · intro p hp
    refine find_peaks_aux_safe a _ a.length ?_ a.length 1 (by omega) p hp
    intro i j k2 hij hjk hi hk
    simp only [ne_eq, cfar_tget] at hi hk ⊢
    generalize (if one_side = true then a.length else a.length - maxNat pts) = E at hi hk ⊢
    omega


/-- Witness for C5 on a concrete two-sided CFAR configuration. -/
theorem C5_cfar_nan_and_peaks_witness :
    ([1, 2] : List ℕ) ≠ [] ∧
    ((∀ i, i < ([1, 5, 1, 5, 1] : List ℚ).length →
      (tget (calculate_cfar_threshold [1, 5, 1, 5, 1] [1, 2] 0.5 false none) i = none ↔
        (i < maxNat [1, 2] ∨ (false = false ∧
          ([1, 5, 1, 5, 1] : List ℚ).length - maxNat [1, 2] ≤ i)))) ∧
    (∀ p ∈ find_peaks [1, 5, 1, 5, 1]
        (calculate_cfar_threshold [1, 5, 1, 5, 1] [1, 2] 0.5 false none),
      ∃ v, tget (calculate_cfar_threshold [1, 5, 1, 5, 1] [1, 2] 0.5 false none) p
          = some v ∧
        v < ([1, 5, 1, 5, 1] : List ℚ).getD p 0)) :=
  ⟨by decide,
    C5_cfar_nan_and_peaks [1, 5, 1, 5, 1] [1, 2] 0.5 false none (by decide)⟩



/-- State of the recorded-threshold accumulator after a run: pointwise sums,
pointwise sums of squares, and the sweep counter. -/
theorem fold_recorded_state (sweeps : List (ℕ → ℚ)) :
    ∀ (st : SCState) (j : ℕ),
      (fold_recorded_threshold_calibration st sweeps).bg_sc_mean j =
        st.bg_sc_mean j + (sweeps.map fun s => s j).sum ∧
      (fold_recorded_threshold_calibration st sweeps).bg_sc_sum_squared_bg_sweeps j =
        st.bg_sc_sum_squared_bg_sweeps j + (sweeps.map fun s => s j ^ 2).sum ∧
      (fold_recorded_threshold_calibration st sweeps).sc_bg_num_sweeps =
        st.sc_bg_num_sweeps + sweeps.length ∧
      (fold_recorded_threshold_calibration st sweeps).sc_bg_num_std_dev =
        st.sc_bg_num_std_dev := by
  induction sweeps with
  | nil => intro st j; simp [fold_recorded_threshold_calibration]
  | cons s rest ih =>
    intro st j
    obtain ⟨h1, h2, h3, h4⟩ := ih (process_recorded_threshold_calibration st s).1 j
    simp only [fold_recorded_threshold_calibration, List.foldl_cons] at h1 h2 h3 h4 ⊢
    refine ⟨?_, ?_, ?_, ?_⟩
    · rw [h1]
      simp only [process_recorded_threshold_calibration, List.map_cons, List.sum_cons]
      ring
    · rw [h2]
      simp only [process_recorded_threshold_calibration, List.map_cons, List.sum_cons]
      ring
    · rw [h3]
      simp only [process_recorded_threshold_calibration, List.length_cons]
      push_cast
      ring
    · rw [h4]
      simp only [process_recorded_threshold_calibration]

/-- The i-th per-call output is the output of processing the i-th sweep from
the state accumulated over the first i sweeps. -/
theorem run_recorded_output (sweeps : List (ℕ → ℚ)) :
    ∀ (st : SCState) (i : ℕ), i < sweeps.length →
      (run_recorded_threshold_calibration st sweeps).getD i none =
        (process_recorded_threshold_calibration
          (fold_recorded_threshold_calibration st (sweeps.take i))
          (sweeps.getD i (fun _ => 0))).2 := by
  induction sweeps with
  | nil => intro st i hi; cases hi
  | cons s rest ih =>
    intro st i hi
    cases i with
    | zero =>
      simp [run_recorded_threshold_calibration, fold_recorded_threshold_calibration]
    | succ i =>
      have hi2 : i < rest.length := by simpa using hi
      have := ih (process_recorded_threshold_calibration st s).1 i hi2
      simp only [run_recorded_threshold_calibration, List.getD_cons_succ, List.take_succ_cons,
        List.getD_cons_succ, fold_recorded_threshold_calibration, List.foldl_cons] at this ⊢
      exact this


/-- Expansion of a sum of squared deviations. -/
theorem sum_sq_dev (l : List ℚ) (m : ℚ) :
    (l.map fun x => (x - m) ^ 2).sum =
      (l.map fun x => x ^ 2).sum - 2 * m * l.sum + l.length * m ^ 2 := by
  induction l with
  | nil => simp
  | cons x xs ih =>
    simp only [List.map_cons, List.sum_cons, List.length_cons, ih]
    push_cast
    ring

/-- A sum of squared deviations is nonnegative. -/
theorem sum_sq_nonneg (l : List ℚ) (m : ℚ) :
    0 ≤ (l.map fun x => (x - m) ^ 2).sum := by
  induction l with
  | nil => simp
  | cons x xs ih =>
    simp only [List.map_cons, List.sum_cons]
    have := sq_nonneg (x - m)
    linarith

/-- C3: in recorded-threshold-calibration mode the first `process()` call
emits no threshold; from the second call onwards the emitted per-point pair
is (running mean of all envelopes seen, unbiased sample variance with n-1
denominator) — the float threshold being mean plus `sc_bg_num_std_dev` times
the square root of that variance — and on identical constant envelopes of
value v every point's pair is exactly (v, 0), i.e. the threshold equals v
regardless of the sensitivity factor. -/
theorem C3_recorded_threshold_calibration (k : ℚ) (sweeps : List (ℕ → ℚ)) (i : ℕ)
    (hi : i < sweeps.length) :
    (i = 0 →
      (run_recorded_threshold_calibration (init_recorded_threshold_calibration k)
        sweeps).getD 0 none = none) ∧
    (1 ≤ i →
      ∃ f, (run_recorded_threshold_calibration (init_recorded_threshold_calibration k)
          sweeps).getD i none = some f ∧
        ∀ j, (f j).1 = ((sweeps.take (i + 1)).map fun s => s j).sum / (i + 1) ∧
          (f j).2 = ((((sweeps.take (i + 1)).map fun s => s j).map fun x =>
            (x - ((sweeps.take (i + 1)).map fun s2 => s2 j).sum / (i + 1)) ^ 2).sum) / i) ∧
    (∀ v : ℚ, (∀ s ∈ sweeps, s = fun _ => v) → 1 ≤ i →
      ∃ f, (run_recorded_threshold_calibration (init_recorded_threshold_calibration k)
          sweeps).getD i none = some f ∧
        ∀ j, f j = (v, 0)) := by
  have hout := run_recorded_output sweeps (init_recorded_threshold_calibration k) i hi
  have hst := fun j => fold_recorded_state (sweeps.take i)
    (init_recorded_threshold_calibration k) j
  have ha : i = 0 →
      (run_recorded_threshold_calibration (init_recorded_threshold_calibration k)
        sweeps).getD 0 none = none := by
    intro h0
    subst h0
    rw [hout]
    simp only [process_recorded_threshold_calibration]
    rw [(hst 0).2.2.1]
    simp [init_recorded_threshold_calibration]
  have hb : 1 ≤ i →
      ∃ f, (run_recorded_threshold_calibration (init_recorded_threshold_calibration k)
          sweeps).getD i none = some f ∧
        ∀ j, (f j).1 = ((sweeps.take (i + 1)).map fun s => s j).sum / (i + 1) ∧
          (f j).2 = ((((sweeps.take (i + 1)).map fun s => s j).map fun x =>
            (x - ((sweeps.take (i + 1)).map fun s2 => s2 j).sum / (i + 1)) ^ 2).sum) / i := by
    intro h1
    rw [hout]
    have hnum : (fold_recorded_threshold_calibration (init_recorded_threshold_calibration k)
        (sweeps.take i)).sc_bg_num_sweeps = 1 + i := by
      rw [(hst 0).2.2.1]
      simp [init_recorded_threshold_calibration, List.length_take, min_eq_left (le_of_lt hi)]
    simp only [process_recorded_threshold_calibration]
    rw [hnum]
    have hcast : (1 : ℚ) ≤ (i : ℚ) := by exact_mod_cast h1
    rw [if_pos (by linarith : (2 : ℚ) ≤ 1 + (i : ℚ))]
    refine ⟨_, rfl, ?_⟩
    intro j
    have hmean := (hst j).1
    have hsq := (hst j).2.1
    rw [show (init_recorded_threshold_calibration k).bg_sc_mean j = 0 from rfl,
      zero_add] at hmean
    rw [show (init_recorded_threshold_calibration k).bg_sc_sum_squared_bg_sweeps j = 0
      from rfl, zero_add] at hsq
    -- abbreviations
    have htake : sweeps.take (i + 1) = sweeps.take i ++ [sweeps.getD i fun _ => 0] := by
      rw [List.take_succ]
      congr 1
      rw [List.getElem?_eq_getElem hi]
      simp [List.getD_eq_getElem?_getD, List.getElem?_eq_getElem hi]
    set c : ℕ → ℚ := sweeps.getD i fun _ => 0 with hc
    set A : ℚ := (List.map (fun s => s j) (sweeps.take i)).sum with hA
    set Q : ℚ := (List.map (fun s => s j ^ 2) (sweeps.take i)).sum with hQ
    set n : ℚ := 1 + (i : ℚ) with hn
    have hnpos : 0 < n := by rw [hn]; positivity
    have hne : n ≠ 0 := ne_of_gt hnpos
    have hn1 : n - 1 = (i : ℚ) := by rw [hn]; ring
    have hn1ne : n - 1 ≠ 0 := by rw [hn1]; exact_mod_cast Nat.one_le_iff_ne_zero.mp h1
    have hSA : ((sweeps.take (i + 1)).map fun s => s j).sum = A + c j := by
      rw [htake, List.map_append, List.sum_append, hA]
      simp
    have hQQ : (((sweeps.take (i + 1)).map fun s => s j).map fun x => x ^ 2).sum
        = Q + c j ^ 2 := by
      rw [hQ, htake, List.map_append, List.map_append, List.sum_append, List.map_map]
      simp [Function.comp_def]
    have hN : (((sweeps.take (i + 1)).map fun s => s j).length : ℚ) = n := by
      rw [List.length_map, List.length_take, min_eq_left (by omega : i + 1 ≤ sweeps.length),
        hn]
      push_cast
      ring
    have hD := sum_sq_dev ((sweeps.take (i + 1)).map fun s => s j) ((A + c j) / n)
    rw [hQQ, hSA, hN] at hD
    have hDnn : 0 ≤ (((sweeps.take (i + 1)).map fun s => s j).map fun x =>
        (x - (A + c j) / n) ^ 2).sum := sum_sq_nonneg _ _
    constructor
    · show (_ + c j) / (1 + (i : ℚ)) = _
      rw [hmean, hSA]
      ring
    · show |(_ + c j ^ 2) / (1 + (i : ℚ)) - ((_ + c j) / (1 + (i : ℚ))) ^ 2| *
        (1 + (i : ℚ)) / (1 + (i : ℚ) - 1) = _
      rw [hmean, hsq, hSA, ← hn]
      have hmu : ((i : ℚ) + 1) = n := by rw [hn]; ring
      rw [hmu]
      have harg : (Q + c j ^ 2) / n - ((A + c j) / n) ^ 2 =
          (((sweeps.take (i + 1)).map fun s => s j).map fun x =>
            (x - (A + c j) / n) ^ 2).sum / n := by
        rw [hD]
        field_simp
        ring
      rw [harg, abs_of_nonneg (div_nonneg hDnn hnpos.le), ← hn1]
      field_simp
  refine ⟨ha, hb, ?_⟩
  intro v hconst h1
  obtain ⟨f, hf, hpt⟩ := hb h1
  refine ⟨f, hf, ?_⟩
  intro j
  have hne1 : ((i : ℚ) + 1) ≠ 0 := by positivity
  have hvals : ∀ x ∈ (sweeps.take (i + 1)).map fun s => s j, x = v := by
    intro x hx
    rw [List.mem_map] at hx
    obtain ⟨s, hs, rfl⟩ := hx
    rw [hconst s (List.mem_of_mem_take hs)]
  have hsum : ((sweeps.take (i + 1)).map fun s => s j).sum = ((i : ℚ) + 1) * v := by
    rw [List.sum_eq_card_nsmul _ v hvals, nsmul_eq_mul, List.length_map, List.length_take,
      min_eq_left (by omega : i + 1 ≤ sweeps.length)]
    push_cast
    ring
  have h1p := (hpt j).1
  have h2p := (hpt j).2
  rw [hsum, mul_div_cancel_left₀ v hne1] at h1p
  rw [hsum, mul_div_cancel_left₀ v hne1] at h2p
  have hzero : (((sweeps.take (i + 1)).map fun s => s j).map fun x => (x - v) ^ 2).sum
      = 0 := by
    apply List.sum_eq_zero
    intro x hx
    rw [List.mem_map] at hx
    obtain ⟨y, hy, rfl⟩ := hx
    rw [hvals y hy]
    ring
  rw [hzero, zero_div] at h2p
  rw [Prod.ext_iff]
  exact ⟨h1p, h2p⟩


/-- Witness for C3 with two identical constant envelopes of value 5. -/
theorem C3_recorded_threshold_calibration_witness :
    1 < ([fun _ => (5 : ℚ), fun _ => (5 : ℚ)] : List (ℕ → ℚ)).length ∧
    ∃ f, (run_recorded_threshold_calibration (init_recorded_threshold_calibration 3)
        [fun _ => (5 : ℚ), fun _ => (5 : ℚ)]).getD 1 none = some f ∧
      ∀ j, f j = (5, 0) := by
  refine ⟨by decide, ?_⟩
  refine (C3_recorded_threshold_calibration 3 [fun _ => (5 : ℚ), fun _ => (5 : ℚ)] 1
    (by decide)).2.2 5 ?_ (by decide)
  intro s hs
  simp only [List.mem_cons, List.mem_singleton, List.not_mem_nil, or_false] at hs
  rcases hs with rfl | rfl <;> rfl


/-- The hwaas-independent shape of a subsweep group plan: breakpoints,
step length and profile. -/
def planShape (p : SubsweepGroupPlan) : List ℤ × ℤ × Profile :=
  (p.breakpoints, p.step_length, p.profile)

/-- The planner's plan shapes (breakpoints, step length, profile) do not
depend on the transcendental link-budget term. -/
theorem create_group_plans_shape_congr (h1 h2 : HwRawFun) (config : DetectorConfig) :
    ((create_group_plans h1 config).close.map planShape,
     (create_group_plans h1 config).far.map planShape)
    = ((create_group_plans h2 config).close.map planShape,
       (create_group_plans h2 config).far.map planShape) := by
  unfold create_group_plans
  dsimp only
  by_cases hc1 : config.start_m < add_to_min_dist_m config Profile.PROFILE_1 <;>
  by_cases hc2a : config.max_profile = Profile.PROFILE_1 <;>
  by_cases hc2b : max config.start_m (add_to_min_dist_m config Profile.PROFILE_1)
      < config.end_m <;>
  by_cases hc3 : add_to_min_dist_m config config.max_profile < config.end_m <;>
    ((try simp only [hc2a] at hc3); simp [hc1, hc2a, hc2b, hc3, planShape])

/-- A list whose image is a singleton is a singleton. -/
theorem map_eq_singleton_ex {α β : Type} (f : α → β) (l : List α) (b : β)
    (h : l.map f = [b]) : ∃ a, l = [a] ∧ f a = b := by
  cases l with
  | nil => simp at h
  | cons x t =>
    cases t with
    | nil =>
      simp at h
      exact ⟨x, rfl, h⟩
    | cons y u => simp at h

/-- A list whose image is a two-element list has two elements. -/
theorem map_eq_pair_ex {α β : Type} (f : α → β) (l : List α) (b c : β)
    (h : l.map f = [b, c]) : ∃ a1 a2, l = [a1, a2] ∧ f a1 = b ∧ f a2 = c := by
  cases l with
  | nil => simp at h
  | cons x t =>
    cases t with
    | nil => simp at h
    | cons y u =>
      cases u with
      | nil =>
        simp at h
        exact ⟨x, y, rfl, h.1, h.2⟩
      | cons z v => simp at h

/-- C1: for a detector config with `start_m = 0.0`, `end_m = 2.0` and
`max_profile = PROFILE_3` (other fields at their defaults),
`_create_group_plans` emits exactly one close-range plan and at least one far
plan, `_detector_to_session_config_and_processor_specs` emits exactly one
CLOSE_RANGE processor spec, and every distance in the requested range
[0 m, 2 m] lies inside some plan's extended breakpoint span (converted to
meters at 2.5 mm per point, with one step length of slack on each side),
for any value of the uninterpreted transcendental hwaas term. -/
theorem C1_end_to_end_plan (hwRaw : HwRawFun) :
    (create_group_plans hwRaw sampleConfig131).close.length = 1 ∧
    1 ≤ (create_group_plans hwRaw sampleConfig131).far.length ∧
    (((detector_to_session_config_and_processor_specs hwRaw sampleConfig131 1).2).filter
      fun s => s.processor_config.measurement_type = .CLOSE_RANGE).length = 1 ∧
    (∀ x : ℚ, 0 ≤ x → x ≤ 2 →
      ∃ p ∈ (create_group_plans hwRaw sampleConfig131).close ++
            (create_group_plans hwRaw sampleConfig131).far,
        ((p.breakpoints.headD 0 : ℚ) - (p.step_length : ℚ)) * APPROX_BASE_STEP_LENGTH_M
            ≤ x ∧
        x ≤ ((p.breakpoints.getLastD 0 : ℚ) + (p.step_length : ℚ)) *
            APPROX_BASE_STEP_LENGTH_M) := by
  have hcongr := create_group_plans_shape_congr hwRaw hwRawZero sampleConfig131
  have hclose : (create_group_plans hwRaw sampleConfig131).close.map planShape
      = [([-36, 112], 4, Profile.PROFILE_1)] := by
    have hcl : (create_group_plans hwRaw sampleConfig131).close.map planShape
        = (create_group_plans hwRawZero sampleConfig131).close.map planShape :=
      congrArg Prod.fst hcongr
    rw [hcl]
    with_unfolding_all decide
  have hfar : (create_group_plans hwRaw sampleConfig131).far.map planShape
      = [([8, 332], 4, Profile.PROFILE_1),
         ([96, 456, 624, 924], 12, Profile.PROFILE_3)] := by
    have hfr : (create_group_plans hwRaw sampleConfig131).far.map planShape
        = (create_group_plans hwRawZero sampleConfig131).far.map planShape :=
      congrArg Prod.snd hcongr
    rw [hfr]
    with_unfolding_all decide
  have hspec : (((detector_to_session_config_and_processor_specs hwRaw
      sampleConfig131 1).2).filter
      fun s => s.processor_config.measurement_type = .CLOSE_RANGE).length = 1 := by
    with_unfolding_all rfl
  obtain ⟨p0, hc_eq, hp0⟩ := map_eq_singleton_ex planShape _ _ hclose
  obtain ⟨p1, p2, hf_eq, _hp1, hp2⟩ := map_eq_pair_ex planShape _ _ _ hfar
  simp only [planShape, Prod.mk.injEq] at hp0 hp2
  obtain ⟨hb0, hs0, -⟩ := hp0
  obtain ⟨hb2, hs2, -⟩ := hp2
  refine ⟨by rw [hc_eq]; rfl, by rw [hf_eq]; norm_num, hspec, ?_⟩
  intro x hx0 hx2
  by_cases hx : x ≤ 0.28
  · refine ⟨p0, ?_, ?_, ?_⟩
    · rw [hc_eq]
      exact List.mem_append_left _ (List.mem_singleton_self p0)
    · rw [hb0, hs0]
      have hhd : (([-36, 112] : List ℤ).headD 0) = -36 := rfl
      rw [hhd]
      push_cast
      rw [APPROX_BASE_STEP_LENGTH_M]
      norm_num
      linarith
    · rw [hb0, hs0]
      have hlst : (([-36, 112] : List ℤ).getLastD 0) = 112 := rfl
      rw [hlst]
      push_cast
      rw [APPROX_BASE_STEP_LENGTH_M]
      norm_num
      linarith
  · push_neg at hx
    refine ⟨p2, ?_, ?_, ?_⟩
    · rw [hf_eq]
      refine List.mem_append_right _ ?_
      simp
    · rw [hb2, hs2]
      have hhd : (([96, 456, 624, 924] : List ℤ).headD 0) = 96 := rfl
      rw [hhd]
      push_cast
      rw [APPROX_BASE_STEP_LENGTH_M]
      norm_num
      linarith
    · rw [hb2, hs2]
      have hlst : (([96, 456, 624, 924] : List ℤ).getLastD 0) = 924 := rfl
      rw [hlst]
      push_cast
      rw [APPROX_BASE_STEP_LENGTH_M]
      norm_num
      linarith

/-- Witness for C1 at the zero link-budget stub and x = 1 m. -/
theorem C1_end_to_end_plan_witness :
    (0 : ℚ) ≤ 1 ∧ (1 : ℚ) ≤ 2 ∧
    ∃ p ∈ (create_group_plans hwRawZero sampleConfig131).close ++
          (create_group_plans hwRawZero sampleConfig131).far,
      ((p.breakpoints.headD 0 : ℚ) - (p.step_length : ℚ)) * APPROX_BASE_STEP_LENGTH_M
          ≤ 1 ∧
      (1 : ℚ) ≤ ((p.breakpoints.getLastD 0 : ℚ) + (p.step_length : ℚ)) *
          APPROX_BASE_STEP_LENGTH_M :=
  ⟨by norm_num, by norm_num,
    (C1_end_to_end_plan hwRawZero).2.2.2 1 (by norm_num) (by norm_num)⟩

/-- Inversion for a bind whose continuation always succeeds. -/
theorem except_bind_ok_inv {α β : Type} (e : Except Err α) (g : α → β) (v : β)
    (h : (e >>= fun r => Except.ok (g r)) = .ok v) : ∃ r, e = .ok r ∧ v = g r := by
  cases e with
  | error err => rw [except_error_bind] at h; cases h
  | ok r =>
    rw [except_ok_bind] at h
    exact ⟨r, rfl, (Except.ok.inj h).symm⟩

/-- A configuration whose plan has no close-range group (its start distance
0.5 m exceeds PROFILE_1's effective minimum distance) and, with the default
CFAR threshold, no recorded-threshold mode. -/
def c10Config : DetectorConfig := { start_m := 0.5, end_m := 1.0 }

/-- A context with `direct_leakage` set but `phase_jitter_comp_reference`
unset. -/
def mismatchedContext : DetectorContext :=
  { direct_leakage := some [], phase_jitter_comp_reference := none }

/-- C10 (counterexample to the second half): on a context where exactly one
of `direct_leakage` / `phase_jitter_comp_reference` is set,
`get_detector_status` does NOT raise when the configuration has no
close-range measurement — it returns an OK status, because
`_close_range_calibrated` is only consulted behind the
`_has_close_range_measurement` test. -/
theorem C10_status_returns_without_close_range :
    (mismatchedContext.direct_leakage.isSome
      ≠ mismatchedContext.phase_jitter_comp_reference.isSome) ∧
    has_close_range_measurement hwRawZero c10Config = false ∧
    get_detector_status hwRawZero c10Config mismatchedContext
      = .ok { detector_state := .OK, ready_to_calibrate_close_range := false,
              ready_to_record_threshold := false, ready_to_start := true } :=
  ⟨by with_unfolding_all decide, by with_unfolding_all decide,
   by with_unfolding_all rfl⟩

/-- C10 (amended): the detector's own operations keep `direct_leakage` and
`phase_jitter_comp_reference` paired — `calibrate_close_range` writes both
(when the external pipeline supplies a direct leakage), and
`record_threshold`, `start` and `stop` never touch them — and on an
externally supplied context where exactly one of the two is set,
`get_detector_status` and `start` raise `RuntimeError`, provided the
configuration has a close-range measurement. -/
theorem C10_leakage_pair_invariant :
    (∀ st leak st', calibrate_close_range st leak = .ok st' →
        leak.direct_leakage.isSome = true →
        st'.context.direct_leakage.isSome = true ∧
        st'.context.phase_jitter_comp_reference.isSome = true) ∧
    (∀ st results st', record_threshold st results = .ok st' →
        st'.context.direct_leakage = st.context.direct_leakage ∧
        st'.context.phase_jitter_comp_reference
          = st.context.phase_jitter_comp_reference) ∧
    (∀ hwRaw st st', Detector.start hwRaw st = .ok st' → st'.context = st.context) ∧
    (∀ st st', Detector.stop st = .ok st' → st'.context = st.context) ∧
    (∀ hwRaw config ctx,
        ctx.direct_leakage.isSome ≠ ctx.phase_jitter_comp_reference.isSome →
        has_close_range_measurement hwRaw config = true →
        get_detector_status hwRaw config ctx = .error .runtimeErrorBad) ∧
    (∀ hwRaw st,
        st.context.direct_leakage.isSome
          ≠ st.context.phase_jitter_comp_reference.isSome →
        st.started = false →
        has_close_range_measurement hwRaw st.detector_config = true →
        Detector.start hwRaw st = .error .runtimeErrorBad) := by
  refine ⟨?_, ?_, ?_, ?_, ?_, ?_⟩
  · intro st leak st' hok hdl
    by_cases hs : st.started
    · simp [calibrate_close_range, hs] at hok
    · cases hfs : filter_close_range_spec st.processor_specs with
      | error e =>
        simp [calibrate_close_range, hs, hfs, except_error_bind] at hok
      | ok specs =>
        cases hp : leak.phase_jitter_comp_reference with
        | none =>
          simp [calibrate_close_range, hs, hfs, except_ok_bind, hp] at hok
        | some pjcr =>
          simp [calibrate_close_range, hs, hfs, except_ok_bind, hp] at hok
          rw [← hok]
          simp [hdl]
  · intro st results st' hok
    by_cases hs : st.started
    · simp [record_threshold, hs] at hok
    · cases hadd : add_context_to_processor_spec st
        (update_processor_mode st.processor_specs .RECORDED_THRESHOLD_CALIBRATION) with
      | error e =>
        simp [record_threshold, hs, hadd, except_error_bind] at hok
      | ok specs =>
        simp [record_threshold, hs, hadd, except_ok_bind] at hok
        obtain ⟨r, -, hv⟩ := except_bind_ok_inv _ _ _ hok
        rw [hv]
        exact ⟨rfl, rfl⟩
  · intro hwRaw st st' hok
    by_cases hs : st.started
    · simp [Detector.start, hs] at hok
    · cases hcal : ensure_detector_is_calibrated hwRaw st with
      | error e =>
        simp [Detector.start, hs, hcal, except_error_bind] at hok
      | ok u =>
        cases hmatch : ensure_matching_session_config hwRaw st with
        | error e =>
          simp [Detector.start, hs, hcal, hmatch, except_ok_bind,
            except_error_bind] at hok
        | ok u2 =>
          cases hadd : add_context_to_processor_spec st st.processor_specs with
          | error e =>
            simp [Detector.start, hs, hcal, hmatch, hadd, except_ok_bind,
              except_error_bind] at hok
          | ok specs =>
            simp [Detector.start, hs, hcal, hmatch, hadd, except_ok_bind] at hok
            rw [← hok]
  · intro st st' hok
    by_cases hs : st.started
    · simp [Detector.stop, hs] at hok
      rw [← hok]
    · simp [Detector.stop, hs] at hok
  · intro hwRaw config ctx hmis hclose
    have hcrc : close_range_calibrated ctx = .error .runtimeErrorBad := by
      simp [close_range_calibrated, hmis]
    simp [get_detector_status, hclose, hcrc, except_error_bind]
  · intro hwRaw st hmis hs hclose
    have hcrc : close_range_calibrated st.context = .error .runtimeErrorBad := by
      simp [close_range_calibrated, hmis]
    have hcal : ensure_detector_is_calibrated hwRaw st = .error .runtimeErrorBad := by
      simp [ensure_detector_is_calibrated, hclose, hcrc, except_error_bind]
    simp [Detector.start, hs, hcal, except_error_bind]

/-- Witness for C10 on the end-to-end configuration (which has a close-range
measurement) and the mismatched context. -/
theorem C10_leakage_pair_invariant_witness :
    (mismatchedContext.direct_leakage.isSome
      ≠ mismatchedContext.phase_jitter_comp_reference.isSome) ∧
    has_close_range_measurement hwRawZero sampleConfig131 = true ∧
    get_detector_status hwRawZero sampleConfig131 mismatchedContext
      = .error .runtimeErrorBad :=
  ⟨by with_unfolding_all decide, by with_unfolding_all decide,
   C10_leakage_pair_invariant.2.2.2.2.1 hwRawZero sampleConfig131 mismatchedContext
     (by with_unfolding_all decide) (by with_unfolding_all decide)⟩

end AcconeerDistance
